import Mathlib

/-!
# Credential service of the fleet server (`server/service_users.go`)

A shallow embedding of `service_users.go` and of the library calls it makes.

* Go strings and byte slices are lists of bytes (`Bytes`); a nil slice and the
  empty string are both `[]`.
* A Go call either returns or panics (`Go`); a Go `error` value is a `GoErr`,
  `nil` being `none`.
* `crypto/rand` is the list of bytes it will still deliver; the datastore behind
  `svc.ds` is any implementation of the three methods the service calls.
* `make([]byte, n)` succeeds only for a size that is not negative, at most
  `maxAlloc`, and within `lim`, the bytes the running system can still allocate.
* Of `golang.org/x/crypto/bcrypt` everything is modelled except the Blowfish
  rounds themselves, which enter as a parameter (`Blowfish`): the model fixes
  what those rounds are fed, not what they compute.
-/

namespace Fleet

/-! ## Bytes, results, errors -/

abbrev Byte := Fin 256

abbrev Bytes := List Byte

/-- Outcome of a Go call: it returns its results, or it panics. -/
inductive Go (α : Type) where
  | ret (a : α) : Go α
  | panic (msg : String) : Go α
deriving DecidableEq, Repr

/-- The Go error values that can reach this file. Each constructor is one error
value (or error type with its payload) of the libraries involved; `errorf text e`
is `fmt.Errorf(text + ": %v", e)`, whose message is `text`, a colon and the
message of `e`. -/
inductive GoErr where
  | randRead : GoErr
  | InvalidCostError (cost : Int) : GoErr
  | ErrHashTooShort : GoErr
  | InvalidHashPrefixError (b : Byte) : GoErr
  | HashVersionTooNewError (b : Byte) : GoErr
  | ErrMismatchedHashAndPassword : GoErr
  | atoiNumError (s : Bytes) : GoErr
  | CorruptInputError (pos : Nat) : GoErr
  | datastore (msg : String) : GoErr
  | errorf (text : String) (cause : GoErr) : GoErr
deriving DecidableEq, Repr

/-- Panic raised by `make([]byte, n)` when it cannot allocate `n` bytes. -/
def makesliceLenOutOfRange : String := "runtime error: makeslice: len out of range"

/-- `maxAlloc`: the largest object any Go runtime allocates, 2^48 bytes on the
64-bit platforms and less elsewhere. -/
def maxAlloc : Nat := 2 ^ 48

/-- Panic raised by dereferencing a nil pointer. -/
def nilPointerDereference : String :=
  "runtime error: invalid memory address or nil pointer dereference"

/-! ## crypto/rand -/

/-- `rand.Read` of `n` bytes: the next `n` bytes of the source, or a failure when
the source cannot deliver that many. -/
def randRead (n : Nat) (src : Bytes) : Option Bytes × Bytes :=
  if n ≤ src.length then (some (src.take n), src.drop n) else (none, src)

/-! ## encoding/base64 -/

/-- Alphabet of `base64.StdEncoding`: `A-Z`, `a-z`, `0-9`, `+`, `/`. -/
def stdAlphabet : List Byte :=
  [65, 66, 67, 68, 69, 70, 71, 72, 73, 74, 75, 76, 77, 78, 79, 80,
   81, 82, 83, 84, 85, 86, 87, 88, 89, 90, 97, 98, 99, 100, 101, 102,
   103, 104, 105, 106, 107, 108, 109, 110, 111, 112, 113, 114, 115, 116, 117, 118,
   119, 120, 121, 122, 48, 49, 50, 51, 52, 53, 54, 55, 56, 57, 43, 47]

/-- Alphabet of bcrypt's own base64 variant: `.`, `/`, `A-Z`, `a-z`, `0-9`. -/
def bcAlphabet : List Byte :=
  [46, 47, 65, 66, 67, 68, 69, 70, 71, 72, 73, 74, 75, 76, 77, 78,
   79, 80, 81, 82, 83, 84, 85, 86, 87, 88, 89, 90, 97, 98, 99, 100,
   101, 102, 103, 104, 105, 106, 107, 108, 109, 110, 111, 112, 113, 114, 115, 116,
   117, 118, 119, 120, 121, 122, 48, 49, 50, 51, 52, 53, 54, 55, 56, 57]

/-- The padding character `=`. -/
def padChar : Byte := 61

/-- `Encoding.Encode`: three bytes become four alphabet characters; a last group
of one or two bytes is completed with `=`. -/
def encodeGroups (alphabet : List Byte) : Bytes → Bytes
  | [] => []
  | [b0] =>
    [alphabet.getD (b0.val / 4) 0, alphabet.getD (b0.val % 4 * 16) 0, padChar, padChar]
  | [b0, b1] =>
    [alphabet.getD (b0.val / 4) 0, alphabet.getD (b0.val % 4 * 16 + b1.val / 16) 0,
     alphabet.getD (b1.val % 16 * 4) 0, padChar]
  | b0 :: b1 :: b2 :: rest =>
    alphabet.getD (b0.val / 4) 0 :: alphabet.getD (b0.val % 4 * 16 + b1.val / 16) 0 ::
    alphabet.getD (b1.val % 16 * 4 + b2.val / 64) 0 :: alphabet.getD (b2.val % 64) 0 ::
    encodeGroups alphabet rest

/-- `base64.StdEncoding.EncodeToString`. -/
def StdEncoding (src : Bytes) : Bytes := encodeGroups stdAlphabet src

/-! ## golang.org/x/crypto/bcrypt -/

def MinCost : Int := 4

def MaxCost : Int := 31

def DefaultCost : Int := 10

/-- `maxSaltSize`: bytes of random salt bcrypt draws for each hash. -/
def maxSaltSize : Nat := 16

/-- `encodedSaltSize`: length of that salt once encoded. -/
def encodedSaltSize : Nat := 22

/-- `encodedHashSize`: length of the encoded digest. -/
def encodedHashSize : Nat := 31

/-- `minHashSize`: shortest byte string accepted as a bcrypt hash. -/
def minHashSize : Nat := 59

/-- The Blowfish part of bcrypt (`expensiveBlowfishSetup`, the 64 encryptions of
the magic text and the encoding of 23 of their bytes), as a function of the cost,
the encoded salt and the 72 bytes of key material the key schedule reads. It
fails when the encoded salt does not decode. -/
abbrev Blowfish := Int → Bytes → Bytes → Except GoErr Bytes

/-- Key material read by `blowfish.ExpandKey`: eighteen 32-bit words, taken from
the key byte by byte, starting again at the first byte whenever the key runs
out. -/
def keyStream (key : Bytes) : Bytes :=
  (List.range 72).map fun j => key.getD (j % key.length) 0

/-- bcrypt's `base64Encode`: its own alphabet, the trailing `=` removed. -/
def base64Encode (src : Bytes) : Bytes :=
  ((encodeGroups bcAlphabet src).reverse.dropWhile (· = padChar)).reverse

/-- The `bcrypt` function of the package: the key is the password followed by a
zero byte. -/
def bcrypt (bf : Blowfish) (password : Bytes) (cost : Int) (salt : Bytes) :
    Except GoErr Bytes :=
  bf cost salt (keyStream (password ++ [0]))

def checkCost (cost : Int) : Option GoErr :=
  if cost < MinCost ∨ cost > MaxCost then some (.InvalidCostError cost) else none

/-- The `hashed` struct of the package. -/
structure hashed where
  hash : Bytes
  salt : Bytes
  cost : Int
  major : Byte
  minor : Byte
deriving DecidableEq, Repr

/-- `copy` into a zeroed destination of `n` bytes. -/
def copyInto (n : Nat) (src : Bytes) : Bytes :=
  (src ++ List.replicate n 0).take n

/-- `fmt.Sprintf("%02d", cost)` for the costs `checkCost` admits. -/
def costDigits (cost : Int) : Bytes :=
  [⟨(48 + cost.toNat / 10 % 10) % 256, Nat.mod_lt _ (by decide)⟩,
   ⟨(48 + cost.toNat % 10) % 256, Nat.mod_lt _ (by decide)⟩]

/-- `hashed.Hash`: `$`, major, minor (when set), `$`, two cost digits, `$`, the
22 salt characters, the 31 digest characters. -/
def hashed.Hash (p : hashed) : Bytes :=
  [36, p.major] ++ (if p.minor ≠ 0 then [p.minor] else []) ++ [36] ++
    costDigits p.cost ++ [36] ++ copyInto encodedSaltSize p.salt ++
    copyInto encodedHashSize p.hash

/-- `newFromPassword` followed by `Hash`, that is `GenerateFromPassword`: a cost
below `MinCost` is replaced by `DefaultCost`, the cost is checked, sixteen bytes
are drawn from `crypto/rand` and encoded, and the digest is computed. -/
def GenerateFromPassword (bf : Blowfish) (password : Bytes) (cost : Int) (src : Bytes) :
    Except GoErr Bytes × Bytes :=
  let cost := if cost < MinCost then DefaultCost else cost
  match checkCost cost with
  | some e => (.error e, src)
  | none =>
    match randRead maxSaltSize src with
    | (none, src1) => (.error .randRead, src1)
    | (some unencodedSalt, src1) =>
      let salt := base64Encode unencodedSalt
      match bcrypt bf password cost salt with
      | .error e => (.error e, src1)
      | .ok hash => (.ok (hashed.Hash ⟨hash, salt, cost, 50, 97⟩), src1)

/-- Value of an ASCII digit. -/
def digitVal (b : Byte) : Option Nat :=
  if 48 ≤ b.val ∧ b.val ≤ 57 then some (b.val - 48) else none

/-- `strconv.Atoi` on a string of two bytes: two digits, or a sign and a digit. -/
def atoi2 (s : Bytes) : Except GoErr Int :=
  match s with
  | [a, b] =>
    match digitVal a, digitVal b with
    | some x, some y => .ok (10 * x + y : Nat)
    | none, some y =>
      if a = 43 then .ok (y : Nat)
      else if a = 45 then .ok (-(y : Nat))
      else .error (.atoiNumError s)
    | _, none => .error (.atoiNumError s)
  | _ => .error (.atoiNumError s)

/-- `newFromHash`: splits a stored hash into version, cost, salt and digest. -/
def newFromHash (hashedSecret : Bytes) : Except GoErr hashed :=
  if hashedSecret.length < minHashSize then .error .ErrHashTooShort
  else
    let b0 := hashedSecret.getD 0 0
    let b1 := hashedSecret.getD 1 0
    let b2 := hashedSecret.getD 2 0
    if b0 ≠ 36 then .error (.InvalidHashPrefixError b0)
    else if b1 > 50 then .error (.HashVersionTooNewError b1)
    else
      let minor : Byte := if b2 ≠ 36 then b2 else 0
      let n := if b2 ≠ 36 then 4 else 3
      let rest := hashedSecret.drop n
      match atoi2 (rest.take 2) with
      | .error e => .error e
      | .ok cost =>
        match checkCost cost with
        | some e => .error e
        | none =>
          let rest := rest.drop 3
          .ok ⟨rest.drop encodedSaltSize, rest.take encodedSaltSize, cost, b1, minor⟩

/-- `CompareHashAndPassword`: the digest of the password is recomputed with the
cost and salt of the stored hash, and the two hashes are compared. -/
def CompareHashAndPassword (bf : Blowfish) (hashedPassword password : Bytes) :
    Option GoErr :=
  match newFromHash hashedPassword with
  | .error e => some e
  | .ok p =>
    match bcrypt bf password p.cost p.salt with
    | .error e => some e
    | .ok otherHash =>
      let otherP : hashed := ⟨otherHash, p.salt, p.cost, p.major, p.minor⟩
      if p.Hash = otherP.Hash then none else some .ErrMismatchedHashAndPassword

/-! ## The kolide package: users and the datastore -/

/-- Modelled from the spec: the `kolide.User` record, whose declaration is not in
this file. It has the fields the data model lists (`Username`, `Email`, the
password hash `Password`, `Salt`, `Admin`, `AdminForcedPasswordReset`, `Enabled`)
and the identity `ID` under which the datastore keeps it. -/
structure kolide.User where
  ID : Nat := 0
  Username : Bytes := []
  Email : Bytes := []
  Password : Bytes := []
  Salt : Bytes := []
  Admin : Bool := false
  AdminForcedPasswordReset : Bool := false
  Enabled : Bool := false
deriving DecidableEq, Repr

/-- Modelled from the spec: the creation request `kolide.UserPayload`, every field
a pointer that may be nil: username, email, plaintext password, optional admin
flag, optional forced-reset flag. -/
structure kolide.UserPayload where
  Username : Option Bytes := none
  Email : Option Bytes := none
  Password : Option Bytes := none
  Admin : Option Bool := none
  AdminForcedPasswordReset : Option Bool := none
deriving DecidableEq, Repr

/-- Modelled from the spec: `User.ValidatePassword`, the verification routine of
the kolide package, which is not in this file. It recomputes the hash of the
plaintext followed by the stored salt and compares it against the stored hash
with the hash algorithm's own comparison. -/
def kolide.User.ValidatePassword (bf : Blowfish) (u : kolide.User) (password : Bytes) :
    Option GoErr :=
  CompareHashAndPassword bf u.Password (password ++ u.Salt)

/-- The datastore methods the service calls, over any type `σ` of datastore
states. `NewUser` and `SaveUser` may change the state; `UserByID` is a read. -/
structure kolide.Datastore (σ : Type) where
  NewUser : kolide.User → σ → Except GoErr kolide.User × σ
  UserByID : Nat → σ → Except GoErr kolide.User
  SaveUser : kolide.User → σ → Option GoErr × σ

/-- A write reaching the datastore. -/
inductive DsWrite where
  | NewUser (u : kolide.User) : DsWrite
  | SaveUser (u : kolide.User) : DsWrite
deriving DecidableEq, Repr

/-- The same datastore, keeping in addition the list of the writes it was asked
to perform, oldest first. -/
def kolide.Datastore.recording {σ : Type} (ds : kolide.Datastore σ) :
    kolide.Datastore (σ × List DsWrite) where
  NewUser u s := ((ds.NewUser u s.1).1, ((ds.NewUser u s.1).2, s.2 ++ [.NewUser u]))
  UserByID id s := ds.UserByID id s.1
  SaveUser u s := ((ds.SaveUser u s.1).1, ((ds.SaveUser u s.1).2, s.2 ++ [.SaveUser u]))

/-- State of the in-memory datastore: the records, newest first, and the next
identity to hand out. -/
structure Inmem where
  users : List kolide.User
  nextID : Nat
deriving DecidableEq, Repr

/-- Modelled from the spec: a datastore meeting the contract of the external
interfaces section. `NewUser` persists a new record under a fresh identity and
fails on a duplicate username, `UserByID` fails with not-found when the identity
is absent, `SaveUser` is a full-record upsert by identity. -/
def inmem : kolide.Datastore Inmem where
  NewUser u s :=
    if s.users.any (fun v => v.Username = u.Username) then
      (.error (.datastore "duplicate username"), s)
    else
      (.ok { u with ID := s.nextID },
       { users := { u with ID := s.nextID } :: s.users, nextID := s.nextID + 1 })
  UserByID id s :=
    match s.users.find? (fun v => v.ID = id) with
    | some u => .ok u
    | none => .error (.datastore "not found")
  SaveUser u s :=
    (none, { s with users := u :: s.users.filter (fun v => v.ID ≠ u.ID) })

/-! ## server/service_users.go -/

structure AuthConfig where
  SaltKeySize : Int
  BcryptCost : Int
deriving DecidableEq, Repr

structure Config where
  Auth : AuthConfig
deriving DecidableEq, Repr

structure service (σ : Type) where
  ds : kolide.Datastore σ
  config : Config

/-- What a service call runs against: the random source and the datastore. -/
structure World (σ : Type) where
  rand : Bytes
  store : σ

/-- helper to convert a bool pointer false -/
def falseIfNil (b : Option Bool) : Bool :=
  match b with
  | none => false
  | some v => v

/-- generateRandomText return a string generated by filling in keySize bytes with
random data and then base64 encoding those bytes. Results: the string and the
error. `make([]byte, keySize)` does not return when the size is negative, above
`maxAlloc`, or above `lim`, the number of bytes the running system can still
allocate. -/
def generateRandomText (lim : Nat) (keySize : Int) (src : Bytes) :
    Go (Bytes × Option GoErr) × Bytes :=
  if keySize < 0 ∨ (maxAlloc : Int) < keySize ∨ (lim : Int) < keySize then
    (.panic makesliceLenOutOfRange, src)
  else
    match randRead keySize.toNat src with
    | (none, src1) => (.ret ([], some .randRead), src1)
    | (some key, src1) => (.ret (StdEncoding key, none), src1)

/-- Results of `hashPassword`: the hash, the salt and the error. -/
def hashPassword (bf : Blowfish) (lim : Nat) (plaintext : Bytes) (keySize cost : Int)
    (src : Bytes) : Go (Bytes × Bytes × Option GoErr) × Bytes :=
  match generateRandomText lim keySize src with
  | (.panic msg, src1) => (.panic msg, src1)
  | (.ret (_, some err), src1) => (.ret ([], [], some err), src1)
  | (.ret (salt, none), src1) =>
    let withSalt := plaintext ++ salt
    match GenerateFromPassword bf withSalt cost src1 with
    | (.error err, src2) => (.ret ([], [], some err), src2)
    | (.ok hashed, src2) => (.ret (hashed, salt, none), src2)

def userFromPayload (bf : Blowfish) (lim : Nat) (p : kolide.UserPayload)
    (keySize cost : Int) (src : Bytes) : Go (Except GoErr kolide.User) × Bytes :=
  match p.Password with
  | none => (.panic nilPointerDereference, src)
  | some password =>
    match hashPassword bf lim password keySize cost src with
    | (.panic msg, src1) => (.panic msg, src1)
    | (.ret (_, _, some err), src1) => (.ret (.error err), src1)
    | (.ret (hashed, salt, none), src1) =>
      match p.Username with
      | none => (.panic nilPointerDereference, src1)
      | some username =>
        match p.Email with
        | none => (.panic nilPointerDereference, src1)
        | some email =>
          (.ret (.ok {
            Username := username
            Email := email
            Admin := falseIfNil p.Admin
            AdminForcedPasswordReset := falseIfNil p.AdminForcedPasswordReset
            Salt := salt
            Enabled := true
            Password := hashed }), src1)

def service.NewUser {σ : Type} (bf : Blowfish) (lim : Nat) (svc : service σ)
    (p : kolide.UserPayload) (w : World σ) : Go (Except GoErr kolide.User) × World σ :=
  match userFromPayload bf lim p svc.config.Auth.SaltKeySize svc.config.Auth.BcryptCost w.rand with
  | (.panic msg, src1) => (.panic msg, ⟨src1, w.store⟩)
  | (.ret (.error err), src1) => (.ret (.error err), ⟨src1, w.store⟩)
  | (.ret (.ok user), src1) =>
    match svc.ds.NewUser user w.store with
    | (.error err, st1) => (.ret (.error err), ⟨src1, st1⟩)
    | (.ok user, st1) => (.ret (.ok user), ⟨src1, st1⟩)

def service.User {σ : Type} (svc : service σ) (id : Nat) (st : σ) :
    Except GoErr kolide.User :=
  svc.ds.UserByID id st

/-- saves user in datastore. -/
def service.saveUser {σ : Type} (svc : service σ) (user : kolide.User) (st : σ) :
    Option GoErr × σ :=
  svc.ds.SaveUser user st

def service.ChangePassword {σ : Type} (bf : Blowfish) (lim : Nat) (svc : service σ)
    (userID : Nat) (old new : Bytes) (w : World σ) : Go (Option GoErr) × World σ :=
  match svc.User userID w.store with
  | .error err => (.ret (some err), w)
  | .ok user =>
    match user.ValidatePassword bf old with
    | some err => (.ret (some (.errorf "current password validation failed" err)), w)
    | none =>
      match hashPassword bf lim new svc.config.Auth.SaltKeySize svc.config.Auth.BcryptCost w.rand with
      | (.panic msg, src1) => (.panic msg, ⟨src1, w.store⟩)
      | (.ret (_, _, some err), src1) => (.ret (some err), ⟨src1, w.store⟩)
      | (.ret (hashed, salt, none), src1) =>
        match svc.saveUser { user with Salt := salt, Password := hashed } w.store with
        | (err, st1) => (.ret err, ⟨src1, st1⟩)

def service.UpdateAdminRole {σ : Type} (svc : service σ) (userID : Nat) (isAdmin : Bool)
    (st : σ) : Option GoErr × σ :=
  match svc.User userID st with
  | .error err => (some err, st)
  | .ok user => svc.saveUser { user with Admin := isAdmin } st

def service.UpdateUserStatus {σ : Type} (svc : service σ) (userID : Nat) (password : Bytes)
    (enabled : Bool) (st : σ) : Option GoErr × σ :=
  match svc.User userID st with
  | .error err => (some err, st)
  | .ok user => svc.saveUser { user with Enabled := enabled } st

/-! ## Concrete inputs -/

/-- A stand-in for the Blowfish rounds, used only to run the model on concrete
inputs: each of the 31 digest bytes adds up three bytes of the key material, one
of the salt and one cost digit. -/
def foldCrypt : Blowfish := fun cost salt key =>
  .ok ((List.range 31).map fun i =>
    key.getD i 0 + key.getD (i + 31) 0 + key.getD (i + 62) 0 + salt.getD i 0
      + (costDigits cost).getD (i % 2) 0)

/-- A megabyte of memory to allocate from. -/
def sampleLimit : Nat := 2 ^ 20

/-- Ninety-six bytes for the random source. -/
def sampleRand : Bytes :=
  [11, 48, 85, 122, 159, 196, 233, 14, 51, 88, 125, 162, 199, 236, 17, 54,
   91, 128, 165, 202, 239, 20, 57, 94, 131, 168, 205, 242, 23, 60, 97, 134,
   171, 208, 245, 26, 63, 100, 137, 174, 211, 248, 29, 66, 103, 140, 177, 214,
   251, 32, 69, 106, 143, 180, 217, 254, 35, 72, 109, 146, 183, 220, 1, 38,
   75, 112, 149, 186, 223, 4, 41, 78, 115, 152, 189, 226, 7, 44, 81, 118,
   155, 192, 229, 10, 47, 84, 121, 158, 195, 232, 13, 50, 87, 124, 161, 198]

/-- A service over the in-memory datastore, with 24 salt bytes and cost 12. -/
def sampleService : service Inmem := ⟨inmem, ⟨⟨24, 12⟩⟩⟩

/-- The request of the example scenario: user `alice`, password `correcthorse`,
no admin flag. -/
def alicePayload : kolide.UserPayload :=
  { Username := some [97, 108, 105, 99, 101]
    Email := some [97, 64, 98, 46, 99]
    Password := some [99, 111, 114, 114, 101, 99, 116, 104, 111, 114, 115, 101] }

/-- An empty in-memory datastore and the sample random source. -/
def emptyWorld : World Inmem := ⟨sampleRand, ⟨[], 1⟩⟩

/-- The world of the example scenario after `alice` was created: she is user 1. -/
def aliceWorld : World Inmem :=
  (sampleService.NewUser foldCrypt sampleLimit alicePayload emptyWorld).2

/-- The plaintext `correcthorse`. -/
def correcthorse : Bytes := [99, 111, 114, 114, 101, 99, 116, 104, 111, 114, 115, 101]

/-- The plaintext `wrongpass`. -/
def wrongpass : Bytes := [119, 114, 111, 110, 103, 112, 97, 115, 115]

/-- The plaintext `newpass`. -/
def newpass : Bytes := [110, 101, 119, 112, 97, 115, 115]

/-- The stored record of `alice` in the example scenario. -/
def alice : kolide.User := aliceWorld.store.users.headD {}

/-- The hash among the results of `hashPassword`. -/
def resultHash (r : Go (Bytes × Bytes × Option GoErr) × Bytes) : Bytes :=
  match r.1 with
  | .ret (hash, _, _) => hash
  | .panic _ => []

/-- The salt among the results of `hashPassword`. -/
def resultSalt (r : Go (Bytes × Bytes × Option GoErr) × Bytes) : Bytes :=
  match r.1 with
  | .ret (_, salt, _) => salt
  | .panic _ => []

/-- The hash `hashPassword` returns for `newpass` in the world of the example
scenario. -/
def newpassHash : Bytes := resultHash (hashPassword foldCrypt sampleLimit newpass 24 12 aliceWorld.rand)

/-- The salt `hashPassword` returns for `newpass` in the world of the example
scenario. -/
def newpassSalt : Bytes := resultSalt (hashPassword foldCrypt sampleLimit newpass 24 12 aliceWorld.rand)

/-- A random source that delivers the same forty bytes twice. -/
def repeatingRand : Bytes := sampleRand.take 40 ++ sampleRand.take 40

/-- A record whose stored hash is empty, as user 2. -/
def bob : kolide.User := { ID := 2, Username := [98, 111, 98] }

/-- The world of `aliceWorld` with `bob` added. -/
def twoUserWorld : World Inmem :=
  ⟨aliceWorld.rand, ⟨bob :: aliceWorld.store.users, 3⟩⟩

/-- A plaintext of 72 bytes: 72 times `a`. -/
def longA : Bytes := List.replicate 72 97

/-- A plaintext of 73 bytes: 72 times `a`, then `b`. -/
def longB : Bytes := List.replicate 72 97 ++ [98]

/-- The service with its datastore recording the writes it receives. -/
def service.recording {σ : Type} (svc : service σ) : service (σ × List DsWrite) :=
  ⟨svc.ds.recording, svc.config⟩

/-- What the encoder needs of an alphabet: 64 distinct characters, none of them
the padding character. -/
structure GoodAlphabet (al : List Byte) : Prop where
  length_eq : al.length = 64
  nodup : al.Nodup
  no_pad : padChar ∉ al

/-- A second request, made once `alice` exists: user `carol`, with the admin flag
set. -/
def carolPayload : kolide.UserPayload :=
  { Username := some [99, 97, 114, 111, 108]
    Email := some [99, 64, 98, 46, 99]
    Password := some [110, 101, 119, 112, 97, 115, 115]
    Admin := some true }

/-- The record `userFromPayload` builds for `carol` in the world where `alice`
exists. -/
def carolBuilt : kolide.User :=
  match (userFromPayload foldCrypt sampleLimit carolPayload 24 12 aliceWorld.rand).1 with
  | .ret (.ok user) => user
  | _ => {}

/-- The datastore stores what it is given, for the record `u` handed to `NewUser`
in state `st`: it accepts the record, changes at most its identity, and returns
that very record from `UserByID` afterwards. -/
def StoresWhatItIsGiven {σ : Type} (ds : kolide.Datastore σ) (u : kolide.User) (st : σ)
    (created : kolide.User) (st1 : σ) : Prop :=
  ds.NewUser u st = (.ok created, st1) ∧
    ds.UserByID created.ID st1 = .ok created ∧ created = { u with ID := created.ID }

/-! ## Creation -/

theorem userFromPayload_of_hash (bf : Blowfish) (lim : Nat) (p : kolide.UserPayload) (keySize cost : Int)
    (src src1 username email password hashed salt : Bytes)
    (hU : p.Username = some username) (hE : p.Email = some email)
    (hP : p.Password = some password)
    (hH : hashPassword bf lim password keySize cost src = (.ret (hashed, salt, none), src1)) :
    userFromPayload bf lim p keySize cost src =
      (.ret (.ok {
        Username := username
        Email := email
        Admin := falseIfNil p.Admin
        AdminForcedPasswordReset := falseIfNil p.AdminForcedPasswordReset
        Salt := salt
        Enabled := true
        Password := hashed }), src1) := by
  simp [userFromPayload, hU, hE, hP, hH]

theorem falseIfNil_eq (b : Option Bool) : falseIfNil b = b.getD false := by
  cases b <;> rfl

/-- C1: for a creation request whose Username, Email and Password are present and
for which hashing succeeds, `userFromPayload` builds a user with `Enabled = true`,
`Admin` and `AdminForcedPasswordReset` equal to the request's flags where supplied
and `false` where nil; `NewUser` hands exactly that record to the datastore, in a
single write, and returns what the datastore returns; and when the datastore
stores that record as given, `NewUser` returns a user and `User` on its identity
yields a record with those three values. -/
theorem NewUser_then_User_defaults {σ : Type} (bf : Blowfish) (lim : Nat) (svc : service σ)
    (p : kolide.UserPayload) (w : World σ) (username email password hashed salt src1 : Bytes)
    (hU : p.Username = some username) (hE : p.Email = some email)
    (hP : p.Password = some password)
    (hH : hashPassword bf lim password svc.config.Auth.SaltKeySize svc.config.Auth.BcryptCost
      w.rand = (.ret (hashed, salt, none), src1)) :
    ∃ user : kolide.User,
      userFromPayload bf lim p svc.config.Auth.SaltKeySize svc.config.Auth.BcryptCost w.rand
        = (.ret (.ok user), src1) ∧
      user.Enabled = true ∧
      user.Admin = p.Admin.getD false ∧
      user.AdminForcedPasswordReset = p.AdminForcedPasswordReset.getD false ∧
      (∀ log : List DsWrite,
        (svc.recording.NewUser bf lim p ⟨w.rand, (w.store, log)⟩).2.store.2
          = log ++ [.NewUser user]) ∧
      svc.NewUser bf lim p w =
        (match (svc.ds.NewUser user w.store).1 with
          | .error err => .ret (.error err)
          | .ok created => .ret (.ok created),
         ⟨src1, (svc.ds.NewUser user w.store).2⟩) ∧
      ∀ (created : kolide.User) (st1 : σ),
        StoresWhatItIsGiven svc.ds user w.store created st1 →
          svc.NewUser bf lim p w = (.ret (.ok created), ⟨src1, st1⟩) ∧
          ∃ got : kolide.User, svc.User created.ID st1 = .ok got ∧
            got.Enabled = true ∧
            got.Admin = p.Admin.getD false ∧
            got.AdminForcedPasswordReset = p.AdminForcedPasswordReset.getD false := by
  have hfrom := userFromPayload_of_hash bf lim p _ _ _ _ _ _ _ _ _ hU hE hP hH
  refine ⟨_, hfrom, rfl, falseIfNil_eq _, falseIfNil_eq _, ?_, ?_, ?_⟩
  · intro log
    simp only [service.NewUser, service.recording]
    rw [show (⟨w.rand, (w.store, log)⟩ : World (σ × List DsWrite)).rand = w.rand from rfl, hfrom]
    simp only [kolide.Datastore.recording]
    rcases svc.ds.NewUser _ w.store with ⟨res, st1⟩
    cases res <;> rfl
  · simp only [service.NewUser, hfrom]
    rcases svc.ds.NewUser _ w.store with ⟨res, st1⟩
    cases res <;> rfl
  · intro created st1 hds
    obtain ⟨hnew, hget, hsame⟩ := hds
    refine ⟨?_, created, hget, ?_, ?_, ?_⟩
    · simp only [service.NewUser, hfrom, hnew]
    · rw [hsame]
    · rw [hsame]; exact falseIfNil_eq _
    · rw [hsame]; exact falseIfNil_eq _

set_option maxRecDepth 100000 in
theorem NewUser_then_User_defaults_witness :
    userFromPayload foldCrypt sampleLimit carolPayload 24 12 aliceWorld.rand
      = (.ret (.ok carolBuilt), sampleRand.drop 80) ∧
    (carolBuilt.Enabled, carolBuilt.Admin, carolBuilt.AdminForcedPasswordReset)
      = (true, true, false) ∧
    (∀ log : List DsWrite,
      (sampleService.recording.NewUser foldCrypt sampleLimit carolPayload
          ⟨aliceWorld.rand, (aliceWorld.store, log)⟩).2.store.2
        = log ++ [.NewUser carolBuilt]) ∧
    sampleService.NewUser foldCrypt sampleLimit carolPayload aliceWorld
      = (.ret (.ok { carolBuilt with ID := 2 }),
         ⟨sampleRand.drop 80, ⟨[{ carolBuilt with ID := 2 }, alice], 3⟩⟩) ∧
    ∃ got : kolide.User,
      sampleService.User 2 ⟨[{ carolBuilt with ID := 2 }, alice], 3⟩ = .ok got ∧
        got.Enabled = true ∧ got.Admin = true ∧ got.AdminForcedPasswordReset = false := by
  obtain ⟨user, h1, _, _, _, h5, _, h7⟩ :=
    NewUser_then_User_defaults foldCrypt sampleLimit sampleService carolPayload aliceWorld
      [99, 97, 114, 111, 108] [99, 64, 98, 46, 99] [110, 101, 119, 112, 97, 115, 115]
      _ _ (sampleRand.drop 80) rfl rfl rfl rfl
  have hu : user = carolBuilt := by
    have h0 : userFromPayload foldCrypt sampleLimit carolPayload 24 12 aliceWorld.rand
        = (.ret (.ok carolBuilt), sampleRand.drop 80) := rfl
    have h2 := h0.symm.trans h1
    simp only [Prod.mk.injEq, Go.ret.injEq, Except.ok.injEq, and_true] at h2
    exact h2.symm
  subst hu
  obtain ⟨h8, h9⟩ := h7 { carolBuilt with ID := 2 }
    ⟨[{ carolBuilt with ID := 2 }, alice], 3⟩ ⟨rfl, rfl, rfl⟩
  exact ⟨h1, rfl, h5, h8, h9⟩

set_option maxRecDepth 100000 in
/-- The first step of the example scenario: `alice` is created without an admin
flag and fetched back with `Admin = false` and `Enabled = true`. -/
theorem scenario_create_alice :
    (sampleService.NewUser foldCrypt sampleLimit alicePayload emptyWorld).1 = .ret (.ok alice) ∧
    sampleService.User alice.ID aliceWorld.store = .ok alice ∧
    (alice.ID, alice.Enabled, alice.Admin, alice.AdminForcedPasswordReset)
      = (1, true, false, false) :=
  ⟨rfl, rfl, rfl⟩

/-! ## Changing the password: the rejected case -/

theorem ChangePassword_of_validate_failed {σ : Type} (bf : Blowfish) (lim : Nat) (svc : service σ)
    (userID : Nat) (old new : Bytes) (w : World σ) (user : kolide.User) (err : GoErr)
    (hUser : svc.User userID w.store = .ok user)
    (hOld : user.ValidatePassword bf old = some err) :
    svc.ChangePassword bf lim userID old new w
      = (.ret (some (.errorf "current password validation failed" err)), w) := by
  simp [service.ChangePassword, hUser, hOld]

/-- C2: when `old` does not verify against the stored Password and Salt of a user
present in the datastore, `ChangePassword` returns the authentication failure
(the error built by `fmt.Errorf` around "current password validation failed") and
leaves the datastore as it was: no write reaches it, and the user read back
afterwards is the same record, hash and salt included. -/
theorem ChangePassword_wrong_old_no_write {σ : Type} (bf : Blowfish) (lim : Nat) (svc : service σ)
    (userID : Nat) (old new : Bytes) (w : World σ) (user : kolide.User) (err : GoErr)
    (hUser : svc.User userID w.store = .ok user)
    (hOld : user.ValidatePassword bf old = some err) :
    svc.ChangePassword bf lim userID old new w
      = (.ret (some (.errorf "current password validation failed" err)), w) ∧
    (svc.ChangePassword bf lim userID old new w).2.store = w.store ∧
    svc.User userID (svc.ChangePassword bf lim userID old new w).2.store = .ok user ∧
    ∀ log : List DsWrite,
      (svc.recording.ChangePassword bf lim userID old new ⟨w.rand, (w.store, log)⟩).2.store
        = (w.store, log) := by
  have h := ChangePassword_of_validate_failed bf lim svc userID old new w user err hUser hOld
  refine ⟨h, by rw [h], by rw [h]; exact hUser, ?_⟩
  intro log
  have hrec : svc.recording.User userID (w.store, log) = .ok user := hUser
  rw [ChangePassword_of_validate_failed bf lim svc.recording userID old new
    ⟨w.rand, (w.store, log)⟩ user err hrec hOld]

set_option maxRecDepth 100000 in
theorem ChangePassword_wrong_old_no_write_witness :
    sampleService.ChangePassword foldCrypt sampleLimit 1 wrongpass newpass aliceWorld
      = (.ret (some (.errorf "current password validation failed"
          .ErrMismatchedHashAndPassword)), aliceWorld) ∧
    (sampleService.ChangePassword foldCrypt sampleLimit 1 wrongpass newpass aliceWorld).2.store
      = aliceWorld.store ∧
    sampleService.User 1
        (sampleService.ChangePassword foldCrypt sampleLimit 1 wrongpass newpass aliceWorld).2.store
      = .ok alice ∧
    ∀ log : List DsWrite,
      (sampleService.recording.ChangePassword foldCrypt sampleLimit 1 wrongpass newpass
          ⟨aliceWorld.rand, (aliceWorld.store, log)⟩).2.store
        = (aliceWorld.store, log) :=
  ChangePassword_wrong_old_no_write foldCrypt sampleLimit sampleService 1 wrongpass newpass aliceWorld
    alice .ErrMismatchedHashAndPassword rfl rfl

/-! ## Role and status updates -/

/-- C4: for a user present in the datastore, `UpdateAdminRole` performs exactly one
write, a `SaveUser` of the fetched record with only `Admin` replaced, and
`UpdateUserStatus` performs exactly one write, a `SaveUser` of the fetched record
with only `Enabled` replaced; the result and the new state are those of that
`SaveUser`. -/
theorem Update_writes_single_field {σ : Type} (svc : service σ) (userID : Nat) (b : Bool)
    (password : Bytes) (st : σ) (user : kolide.User)
    (hUser : svc.User userID st = .ok user) :
    (∀ log : List DsWrite,
      svc.recording.UpdateAdminRole userID b (st, log)
        = ((svc.ds.SaveUser { user with Admin := b } st).1,
           ((svc.ds.SaveUser { user with Admin := b } st).2,
            log ++ [.SaveUser
              { ID := user.ID, Username := user.Username, Email := user.Email,
                Password := user.Password, Salt := user.Salt, Admin := b,
                AdminForcedPasswordReset := user.AdminForcedPasswordReset,
                Enabled := user.Enabled }]))) ∧
    (∀ log : List DsWrite,
      svc.recording.UpdateUserStatus userID password b (st, log)
        = ((svc.ds.SaveUser { user with Enabled := b } st).1,
           ((svc.ds.SaveUser { user with Enabled := b } st).2,
            log ++ [.SaveUser
              { ID := user.ID, Username := user.Username, Email := user.Email,
                Password := user.Password, Salt := user.Salt, Admin := user.Admin,
                AdminForcedPasswordReset := user.AdminForcedPasswordReset,
                Enabled := b }]))) ∧
    svc.UpdateAdminRole userID b st = svc.ds.SaveUser { user with Admin := b } st ∧
    svc.UpdateUserStatus userID password b st
      = svc.ds.SaveUser { user with Enabled := b } st := by
  have hrec : ∀ log : List DsWrite, svc.recording.User userID (st, log) = .ok user :=
    fun _ => hUser
  refine ⟨?_, ?_, ?_, ?_⟩
  · intro log
    simp only [service.UpdateAdminRole, hrec log]
    rfl
  · intro log
    simp only [service.UpdateUserStatus, hrec log]
    rfl
  · simp only [service.UpdateAdminRole, hUser]
    rfl
  · simp only [service.UpdateUserStatus, hUser]
    rfl

set_option maxRecDepth 100000 in
theorem Update_writes_single_field_witness :
    (∀ log : List DsWrite,
      sampleService.recording.UpdateAdminRole 2 true (twoUserWorld.store, log)
        = (none,
           (⟨{ bob with Admin := true } :: aliceWorld.store.users, 3⟩,
            log ++ [.SaveUser
              { ID := 2, Username := [98, 111, 98], Email := [],
                Password := [], Salt := [], Admin := true,
                AdminForcedPasswordReset := false,
                Enabled := false }]))) ∧
    (∀ log : List DsWrite,
      sampleService.recording.UpdateUserStatus 2 wrongpass true (twoUserWorld.store, log)
        = (none,
           (⟨{ bob with Enabled := true } :: aliceWorld.store.users, 3⟩,
            log ++ [.SaveUser
              { ID := 2, Username := [98, 111, 98], Email := [],
                Password := [], Salt := [], Admin := false,
                AdminForcedPasswordReset := false,
                Enabled := true }]))) ∧
    sampleService.UpdateAdminRole 2 true twoUserWorld.store
      = (none, ⟨{ bob with Admin := true } :: aliceWorld.store.users, 3⟩) ∧
    sampleService.UpdateUserStatus 2 wrongpass true twoUserWorld.store
      = (none, ⟨{ bob with Enabled := true } :: aliceWorld.store.users, 3⟩) :=
  Update_writes_single_field sampleService 2 true wrongpass twoUserWorld.store bob rfl

/-- C8: `UpdateUserStatus` never looks at its password argument: for any two
passwords it returns the same result and leaves the datastore in the same state,
namely those of fetching the user and saving it with `Enabled` replaced. -/
theorem UpdateUserStatus_ignores_password {σ : Type} (svc : service σ) (userID : Nat)
    (p1 p2 : Bytes) (enabled : Bool) (st : σ) :
    svc.UpdateUserStatus userID p1 enabled st = svc.UpdateUserStatus userID p2 enabled st ∧
    svc.UpdateUserStatus userID p1 enabled st =
      match svc.ds.UserByID userID st with
      | .error err => (some err, st)
      | .ok user => svc.ds.SaveUser { user with Enabled := enabled } st :=
  ⟨rfl, rfl⟩

set_option maxRecDepth 100000 in
theorem UpdateUserStatus_wrong_password_disables :
    sampleService.UpdateUserStatus 1 wrongpass false aliceWorld.store
      = sampleService.UpdateUserStatus 1 [] false aliceWorld.store ∧
    (sampleService.UpdateUserStatus 1 wrongpass false aliceWorld.store).1 = none ∧
    (sampleService.User 1
      (sampleService.UpdateUserStatus 1 wrongpass false aliceWorld.store).2).map
        (fun u => u.Enabled) = .ok false :=
  ⟨(UpdateUserStatus_ignores_password sampleService 1 wrongpass [] false aliceWorld.store).1,
    rfl, rfl⟩

/-! ## Creation with a missing field -/

theorem userFromPayload_missing (bf : Blowfish) (lim : Nat) (p : kolide.UserPayload) (keySize cost : Int)
    (src : Bytes) (h : p.Username = none ∨ p.Email = none ∨ p.Password = none) :
    (userFromPayload bf lim p keySize cost src).1 = .panic nilPointerDereference ∨
    ∃ password, p.Password = some password ∧
      ((hashPassword bf lim password keySize cost src).1 = .panic makesliceLenOutOfRange ∧
          (userFromPayload bf lim p keySize cost src).1 = .panic makesliceLenOutOfRange ∨
        ∃ err, (hashPassword bf lim password keySize cost src).1 = .ret ([], [], some err) ∧
          (userFromPayload bf lim p keySize cost src).1 = .ret (.error err)) := by
  cases hP : p.Password with
  | none => left; simp [userFromPayload, hP]
  | some password =>
    have hgen : (generateRandomText lim keySize src).1 = .panic makesliceLenOutOfRange ∨
        ∃ s e, (generateRandomText lim keySize src).1 = .ret (s, e) := by
      unfold generateRandomText
      split
      · left; rfl
      · right
        rcases randRead keySize.toNat src with ⟨_ | key, src1⟩
        · exact ⟨_, _, rfl⟩
        · exact ⟨_, _, rfl⟩
    rcases hg : generateRandomText lim keySize src with ⟨res, src1⟩
    rw [hg] at hgen
    rcases hgen with hpanic | ⟨s, e, hret⟩
    · simp only at hpanic
      subst hpanic
      right
      refine ⟨password, rfl, Or.inl ?_⟩
      simp [userFromPayload, hashPassword, hP, hg]
    · simp only at hret
      subst hret
      cases e with
      | some err =>
        right
        refine ⟨password, rfl, Or.inr ⟨err, ?_⟩⟩
        simp [userFromPayload, hashPassword, hP, hg]
      | none =>
        rcases hgfp : GenerateFromPassword bf (password ++ s) cost src1 with ⟨r, src2⟩
        cases r with
        | error err =>
          right
          refine ⟨password, rfl, Or.inr ⟨err, ?_⟩⟩
          simp [userFromPayload, hashPassword, hP, hg, hgfp]
        | ok hashed =>
          left
          rcases h with hU | hE | hP2
          · simp [userFromPayload, hashPassword, hP, hg, hgfp, hU]
          · cases hU : p.Username with
            | none => simp [userFromPayload, hashPassword, hP, hg, hgfp, hU]
            | some username => simp [userFromPayload, hashPassword, hP, hg, hgfp, hU, hE]
          · rw [hP] at hP2; cases hP2

theorem NewUser_of_no_user {σ : Type} (bf : Blowfish) (lim : Nat) (svc : service σ)
    (p : kolide.UserPayload) (w : World σ)
    (h : ∀ user, (userFromPayload bf lim p svc.config.Auth.SaltKeySize
      svc.config.Auth.BcryptCost w.rand).1 ≠ .ret (.ok user)) :
    svc.NewUser bf lim p w =
      ((userFromPayload bf lim p svc.config.Auth.SaltKeySize svc.config.Auth.BcryptCost w.rand).1,
       ⟨(userFromPayload bf lim p svc.config.Auth.SaltKeySize
          svc.config.Auth.BcryptCost w.rand).2, w.store⟩) := by
  rcases hf : userFromPayload bf lim p svc.config.Auth.SaltKeySize
    svc.config.Auth.BcryptCost w.rand with ⟨res, src1⟩
  rw [hf] at h
  cases res with
  | panic msg => simp [service.NewUser, hf]
  | ret r =>
    cases r with
    | error err => simp [service.NewUser, hf]
    | ok user => exact absurd rfl (h user)

theorem userFromPayload_missing_no_user (bf : Blowfish) (lim : Nat) (p : kolide.UserPayload)
    (keySize cost : Int) (src : Bytes)
    (h : p.Username = none ∨ p.Email = none ∨ p.Password = none) (user : kolide.User) :
    (userFromPayload bf lim p keySize cost src).1 ≠ .ret (.ok user) := by
  intro hret
  rcases userFromPayload_missing bf lim p keySize cost src h with hp | ⟨_, _, ⟨_, hp⟩ | ⟨_, _, hp⟩⟩
  · rw [hp] at hret; cases hret
  · rw [hp] at hret; cases hret
  · rw [hp] at hret; cases hret

/-- C6 as amended: for a creation request in which Username, Email or Password is
nil, `NewUser` writes nothing to the datastore and returns no user. There is no
validation step: the call panics on the nil pointer (at once, with the random
source untouched, when Password is nil), unless Password is present and
`hashPassword` itself panics or fails first, whose outcome is then passed on. -/
theorem NewUser_missing_field_no_write {σ : Type} (bf : Blowfish) (lim : Nat) (svc : service σ)
    (p : kolide.UserPayload) (w : World σ)
    (h : p.Username = none ∨ p.Email = none ∨ p.Password = none) :
    (svc.NewUser bf lim p w).2.store = w.store ∧
    (∀ log : List DsWrite,
      (svc.recording.NewUser bf lim p ⟨w.rand, (w.store, log)⟩).2.store = (w.store, log)) ∧
    (∀ user, (svc.NewUser bf lim p w).1 ≠ .ret (.ok user)) ∧
    (p.Password = none → svc.NewUser bf lim p w = (.panic nilPointerDereference, w)) ∧
    ((svc.NewUser bf lim p w).1 = .panic nilPointerDereference ∨
      ∃ password, p.Password = some password ∧
        ((hashPassword bf lim password svc.config.Auth.SaltKeySize svc.config.Auth.BcryptCost
              w.rand).1 = .panic makesliceLenOutOfRange ∧
            (svc.NewUser bf lim p w).1 = .panic makesliceLenOutOfRange ∨
          ∃ err, (hashPassword bf lim password svc.config.Auth.SaltKeySize
              svc.config.Auth.BcryptCost w.rand).1 = .ret ([], [], some err) ∧
            (svc.NewUser bf lim p w).1 = .ret (.error err))) := by
  have hno := userFromPayload_missing_no_user bf lim p svc.config.Auth.SaltKeySize
    svc.config.Auth.BcryptCost w.rand h
  have hrun := NewUser_of_no_user bf lim svc p w hno
  have hrec : ∀ log : List DsWrite,
      (svc.recording.NewUser bf lim p ⟨w.rand, (w.store, log)⟩).2.store = (w.store, log) := by
    intro log
    rw [NewUser_of_no_user bf lim svc.recording p ⟨w.rand, (w.store, log)⟩ hno]
  refine ⟨by rw [hrun], hrec, ?_, ?_, ?_⟩
  · intro user; rw [hrun]; exact hno user
  · intro hP
    simp [service.NewUser, userFromPayload, hP]
  · rw [hrun]
    exact userFromPayload_missing bf lim p _ _ _ h

set_option maxRecDepth 100000 in
theorem NewUser_missing_field_no_write_witness :
    (sampleService.NewUser foldCrypt sampleLimit { alicePayload with Email := none } emptyWorld).2.store
      = emptyWorld.store ∧
    (∀ log : List DsWrite,
      (sampleService.recording.NewUser foldCrypt sampleLimit { alicePayload with Email := none }
        ⟨emptyWorld.rand, (emptyWorld.store, log)⟩).2.store = (emptyWorld.store, log)) ∧
    (∀ user, (sampleService.NewUser foldCrypt sampleLimit { alicePayload with Email := none }
      emptyWorld).1 ≠ .ret (.ok user)) ∧
    (sampleService.NewUser foldCrypt sampleLimit { alicePayload with Email := none } emptyWorld).1
      = .panic nilPointerDereference := by
  have h := NewUser_missing_field_no_write foldCrypt sampleLimit sampleService
    { alicePayload with Email := none } emptyWorld (Or.inr (Or.inl rfl))
  exact ⟨h.1, h.2.1, h.2.2.1, rfl⟩

/-- C6 fails as stated: for the request of the example scenario with its Password
nil, `NewUser` does not return an error at all, it panics with a nil pointer
dereference. -/
theorem NewUser_nil_password_panics :
    sampleService.NewUser foldCrypt sampleLimit { alicePayload with Password := none } emptyWorld
      = (.panic nilPointerDereference, emptyWorld) ∧
    ¬ ∃ err, (sampleService.NewUser foldCrypt sampleLimit { alicePayload with Password := none }
      emptyWorld).1 = .ret (.error err) := by
  refine ⟨rfl, ?_⟩
  rintro ⟨err, herr⟩
  cases herr

/-! ## Changing the password: what the error tells -/

/-- C7 as amended: when verification of the old password fails, `ChangePassword`
returns the error built by `fmt.Errorf` from the text "current password validation
failed" and the underlying error of `ValidatePassword`; two such runs return the
same error exactly when their underlying errors are the same. -/
theorem ChangePassword_error_carries_cause {σ τ : Type} (bf : Blowfish) (lim : Nat)
    (svc1 : service σ) (svc2 : service τ) (id1 id2 : Nat) (old1 new1 old2 new2 : Bytes)
    (w1 : World σ) (w2 : World τ) (user1 user2 : kolide.User) (err1 err2 : GoErr)
    (hUser1 : svc1.User id1 w1.store = .ok user1)
    (hUser2 : svc2.User id2 w2.store = .ok user2)
    (hOld1 : user1.ValidatePassword bf old1 = some err1)
    (hOld2 : user2.ValidatePassword bf old2 = some err2) :
    (svc1.ChangePassword bf lim id1 old1 new1 w1).1
      = .ret (some (.errorf "current password validation failed" err1)) ∧
    (svc2.ChangePassword bf lim id2 old2 new2 w2).1
      = .ret (some (.errorf "current password validation failed" err2)) ∧
    ((svc1.ChangePassword bf lim id1 old1 new1 w1).1 = (svc2.ChangePassword bf lim id2 old2 new2 w2).1
      ↔ err1 = err2) := by
  rw [ChangePassword_of_validate_failed bf lim svc1 id1 old1 new1 w1 user1 err1 hUser1 hOld1,
    ChangePassword_of_validate_failed bf lim svc2 id2 old2 new2 w2 user2 err2 hUser2 hOld2]
  refine ⟨rfl, rfl, ?_⟩
  constructor
  · intro h
    simpa using h
  · intro h
    rw [h]

set_option maxRecDepth 100000 in
theorem ChangePassword_error_carries_cause_witness :
    (sampleService.ChangePassword foldCrypt sampleLimit 1 wrongpass newpass twoUserWorld).1
      = .ret (some (.errorf "current password validation failed"
          .ErrMismatchedHashAndPassword)) ∧
    (sampleService.ChangePassword foldCrypt sampleLimit 2 wrongpass newpass twoUserWorld).1
      = .ret (some (.errorf "current password validation failed" .ErrHashTooShort)) ∧
    ((sampleService.ChangePassword foldCrypt sampleLimit 1 wrongpass newpass twoUserWorld).1
        = (sampleService.ChangePassword foldCrypt sampleLimit 2 wrongpass newpass twoUserWorld).1
      ↔ GoErr.ErrMismatchedHashAndPassword = GoErr.ErrHashTooShort) :=
  ChangePassword_error_carries_cause foldCrypt sampleLimit sampleService sampleService 1 2
    wrongpass newpass wrongpass newpass twoUserWorld twoUserWorld
    alice bob _ _ rfl rfl rfl rfl

set_option maxRecDepth 100000 in
/-- C7 fails as stated: in one datastore, a wrong old password for user 1 (stored
hash well formed) and for user 2 (stored hash empty) make `ValidatePassword` fail
with two different underlying errors, and `ChangePassword` returns two different
errors, each carrying its cause. -/
theorem ChangePassword_errors_differ :
    alice.ValidatePassword foldCrypt wrongpass
      = some .ErrMismatchedHashAndPassword ∧
    bob.ValidatePassword foldCrypt wrongpass = some .ErrHashTooShort ∧
    (sampleService.ChangePassword foldCrypt sampleLimit 1 wrongpass newpass twoUserWorld).1
      ≠ (sampleService.ChangePassword foldCrypt sampleLimit 2 wrongpass newpass twoUserWorld).1 := by
  refine ⟨rfl, rfl, ?_⟩
  decide

/-! ## hashPassword step by step -/

theorem generateRandomText_of_read (lim : Nat) (keySize : Int) (src key src1 : Bytes)
    (hk : 0 ≤ keySize) (hmax : keySize ≤ maxAlloc) (hlim : keySize ≤ lim)
    (hr : randRead keySize.toNat src = (some key, src1)) :
    generateRandomText lim keySize src = (.ret (StdEncoding key, none), src1) := by
  have hc : ¬ (keySize < 0 ∨ (maxAlloc : Int) < keySize ∨ (lim : Int) < keySize) := by omega
  simp [generateRandomText, hc, hr]

theorem generateRandomText_of_read_failed (lim : Nat) (keySize : Int) (src src1 : Bytes)
    (hk : 0 ≤ keySize) (hmax : keySize ≤ maxAlloc) (hlim : keySize ≤ lim)
    (hr : randRead keySize.toNat src = (none, src1)) :
    generateRandomText lim keySize src = (.ret ([], some .randRead), src1) := by
  have hc : ¬ (keySize < 0 ∨ (maxAlloc : Int) < keySize ∨ (lim : Int) < keySize) := by omega
  simp [generateRandomText, hc, hr]

theorem randRead_some (n : Nat) (src key src1 : Bytes)
    (hr : randRead n src = (some key, src1)) :
    key = src.take n ∧ src1 = src.drop n ∧ key.length = n := by
  unfold randRead at hr
  split at hr
  · simp only [Prod.mk.injEq, Option.some.injEq] at hr
    obtain ⟨h1, h2⟩ := hr
    subst h1 h2
    exact ⟨rfl, rfl, by simp; omega⟩
  · simp at hr

theorem GenerateFromPassword_low_cost (bf : Blowfish) (password : Bytes) (cost : Int)
    (src : Bytes) (hc : cost < MinCost) :
    GenerateFromPassword bf password cost src
      = GenerateFromPassword bf password DefaultCost src := by
  have hd : ¬ DefaultCost < MinCost := by decide
  simp only [GenerateFromPassword, hc, hd, if_true, if_false]

theorem generateRandomText_no_alloc (lim : Nat) (keySize : Int) (src : Bytes)
    (h : keySize < 0 ∨ (maxAlloc : Int) < keySize ∨ (lim : Int) < keySize) :
    generateRandomText lim keySize src = (.panic makesliceLenOutOfRange, src) := by
  simp [generateRandomText, h]

theorem hashPassword_no_alloc (bf : Blowfish) (lim : Nat) (plaintext : Bytes)
    (keySize cost : Int) (src : Bytes)
    (h : keySize < 0 ∨ (maxAlloc : Int) < keySize ∨ (lim : Int) < keySize) :
    hashPassword bf lim plaintext keySize cost src = (.panic makesliceLenOutOfRange, src) := by
  simp [hashPassword, generateRandomText_no_alloc lim keySize src h]

/-- C9 as amended: for every plaintext, every cost and every key size that `make`
can allocate (not negative, at most `maxAlloc`, and within the bytes `lim` the
running system can still allocate), `hashPassword` does not panic; it first
generates its salt, the standard base64 encoding of `keySize` bytes read from the
random source, then passes exactly the plaintext followed by that salt, and the
given cost, to `bcrypt.GenerateFromPassword` and, on success, returns that hash
with that same salt. A cost below 4 is hashed as the default cost 10. If the
random source fails, or the hash computation rejects its input (a cost above 31
for one), it returns the error with a nil hash and an empty salt. For any other
key size the allocation fails and `hashPassword` panics. -/
theorem hashPassword_steps (bf : Blowfish) (lim : Nat) (plaintext : Bytes)
    (keySize cost : Int) (src : Bytes)
    (hk : 0 ≤ keySize) (hmax : keySize ≤ maxAlloc) (hlim : keySize ≤ lim) :
    (∀ msg, (hashPassword bf lim plaintext keySize cost src).1 ≠ .panic msg) ∧
    (∀ key src1, randRead keySize.toNat src = (some key, src1) →
      key.length = keySize.toNat ∧
      generateRandomText lim keySize src = (.ret (StdEncoding key, none), src1) ∧
      (∀ hashed src2,
        GenerateFromPassword bf (plaintext ++ StdEncoding key) cost src1 = (.ok hashed, src2) →
          hashPassword bf lim plaintext keySize cost src
            = (.ret (hashed, StdEncoding key, none), src2)) ∧
      (∀ err src2,
        GenerateFromPassword bf (plaintext ++ StdEncoding key) cost src1 = (.error err, src2) →
          hashPassword bf lim plaintext keySize cost src = (.ret ([], [], some err), src2)) ∧
      (MaxCost < cost →
        hashPassword bf lim plaintext keySize cost src
          = (.ret ([], [], some (.InvalidCostError cost)), src1)) ∧
      (cost < MinCost →
        hashPassword bf lim plaintext keySize cost src
          = hashPassword bf lim plaintext keySize DefaultCost src)) ∧
    (∀ src1, randRead keySize.toNat src = (none, src1) →
      generateRandomText lim keySize src = (.ret ([], some .randRead), src1) ∧
      hashPassword bf lim plaintext keySize cost src
        = (.ret ([], [], some .randRead), src1)) ∧
    (∀ (lim2 : Nat) (keySize2 : Int),
      keySize2 < 0 ∨ (maxAlloc : Int) < keySize2 ∨ (lim2 : Int) < keySize2 →
        hashPassword bf lim2 plaintext keySize2 cost src
          = (.panic makesliceLenOutOfRange, src)) := by
  refine ⟨?_, ?_, ?_, ?_⟩
  · intro msg
    rcases hr : randRead keySize.toNat src with ⟨_ | key, src1⟩
    · have hgen := generateRandomText_of_read_failed lim keySize src src1 hk hmax hlim hr
      simp [hashPassword, hgen]
    · have hgen := generateRandomText_of_read lim keySize src key src1 hk hmax hlim hr
      rcases hg : GenerateFromPassword bf (plaintext ++ StdEncoding key) cost src1
        with ⟨_ | h, src2⟩
      · simp [hashPassword, hgen, hg]
      · simp [hashPassword, hgen, hg]
  · intro key src1 hr
    have hgen := generateRandomText_of_read lim keySize src key src1 hk hmax hlim hr
    refine ⟨(randRead_some _ _ _ _ hr).2.2, hgen, ?_, ?_, ?_, ?_⟩
    · intro hashed src2 hg
      simp [hashPassword, hgen, hg]
    · intro err src2 hg
      simp [hashPassword, hgen, hg]
    · intro hc
      have h4 : ¬ cost < MinCost := by
        unfold MinCost; unfold MaxCost at hc; omega
      have hcc : checkCost cost = some (.InvalidCostError cost) := by
        simp [checkCost, hc]
      simp [hashPassword, hgen, GenerateFromPassword, h4, hcc]
    · intro hc
      have hgenD := hgen
      simp only [hashPassword, hgen, GenerateFromPassword_low_cost bf _ cost src1 hc]
  · intro src1 hr
    have hgen := generateRandomText_of_read_failed lim keySize src src1 hk hmax hlim hr
    exact ⟨hgen, by simp [hashPassword, hgen]⟩
  · intro lim2 keySize2 h
    exact hashPassword_no_alloc bf lim2 plaintext keySize2 cost src h

set_option maxRecDepth 100000 in
theorem hashPassword_steps_witness :
    hashPassword foldCrypt sampleLimit correcthorse 24 12 sampleRand
      = (.ret (alice.Password, StdEncoding (sampleRand.take 24), none), sampleRand.drop 40) ∧
    hashPassword foldCrypt sampleLimit correcthorse 24 32 sampleRand
      = (.ret ([], [], some (.InvalidCostError 32)), sampleRand.drop 24) ∧
    hashPassword foldCrypt sampleLimit correcthorse 97 12 sampleRand
      = (.ret ([], [], some .randRead), sampleRand) := by
  refine ⟨?_, ?_, ?_⟩
  · exact ((hashPassword_steps foldCrypt sampleLimit correcthorse 24 12 sampleRand
      (by decide) (by decide) (by decide)).2.1
      (sampleRand.take 24) (sampleRand.drop 24) rfl).2.2.1 _ _ rfl
  · exact ((hashPassword_steps foldCrypt sampleLimit correcthorse 24 32 sampleRand
      (by decide) (by decide) (by decide)).2.1
      (sampleRand.take 24) (sampleRand.drop 24) rfl).2.2.2.2.1 (by decide)
  · exact ((hashPassword_steps foldCrypt sampleLimit correcthorse 97 12 sampleRand
      (by decide) (by decide) (by decide)).2.2.1
      sampleRand rfl).2

set_option maxRecDepth 100000 in
/-- C9 fails as stated: with a key size of -1, and with a key size of 2^62,
`hashPassword` generates no salt and returns no error, it panics in `make`,
whatever its other arguments and however much memory there is; and with a cost of
0 the hash computation neither uses the given cost nor rejects it, the result is
the one for cost 10. -/
theorem hashPassword_negative_keySize_panics :
    hashPassword foldCrypt sampleLimit correcthorse (-1) 12 sampleRand
      = (.panic makesliceLenOutOfRange, sampleRand) ∧
    (∀ (bf : Blowfish) (lim : Nat) (plaintext : Bytes) (cost : Int) (src : Bytes),
      hashPassword bf lim plaintext (-1) cost src = (.panic makesliceLenOutOfRange, src)) ∧
    (∀ (bf : Blowfish) (lim : Nat) (plaintext : Bytes) (cost : Int) (src : Bytes),
      hashPassword bf lim plaintext (2 ^ 62) cost src
        = (.panic makesliceLenOutOfRange, src)) ∧
    (resultHash (hashPassword foldCrypt sampleLimit correcthorse 24 0 sampleRand)).take 7
      = [36, 50, 97, 36, 49, 48, 36] ∧
    (∀ (bf : Blowfish) (lim : Nat) (plaintext : Bytes) (keySize : Int) (src : Bytes),
      hashPassword bf lim plaintext keySize 0 src
        = hashPassword bf lim plaintext keySize 10 src) := by
  refine ⟨rfl, ?_, ?_, rfl, ?_⟩
  · intro bf lim plaintext cost src
    exact hashPassword_no_alloc bf lim plaintext (-1) cost src (Or.inl (by decide))
  · intro bf lim plaintext cost src
    exact hashPassword_no_alloc bf lim plaintext (2 ^ 62) cost src
      (Or.inr (Or.inl (by decide)))
  · intro bf lim plaintext keySize src
    have h : ∀ (pw s : Bytes), GenerateFromPassword bf pw 0 s
        = GenerateFromPassword bf pw 10 s :=
      fun pw s => GenerateFromPassword_low_cost bf pw 0 s (by decide)
    simp only [hashPassword, h]

/-! ## bcrypt: a generated hash read back -/

theorem copyInto_length (n : Nat) (l : Bytes) : (copyInto n l).length = n := by
  simp [copyInto]

theorem copyInto_of_length (n : Nat) (l : Bytes) (h : l.length = n) : copyInto n l = l := by
  simp [copyInto, List.take_append_eq_append_take, h]

theorem copyInto_idem (n : Nat) (l : Bytes) : copyInto n (copyInto n l) = copyInto n l :=
  copyInto_of_length n _ (copyInto_length n l)

theorem atoi2_costDigits (cost : Int) (h4 : 4 ≤ cost) (h31 : cost ≤ 31) :
    atoi2 (costDigits cost) = .ok cost := by
  interval_cases cost <;> rfl

theorem checkCost_none (cost : Int) (h4 : 4 ≤ cost) (h31 : cost ≤ 31) :
    checkCost cost = none := by
  simp [checkCost, MinCost, MaxCost]; omega

theorem costDigits_length (cost : Int) : (costDigits cost).length = 2 := rfl

theorem newFromHash_Hash (d salt : Bytes) (cost : Int) (hs : salt.length = encodedSaltSize)
    (h4 : 4 ≤ cost) (h31 : cost ≤ 31) :
    newFromHash (hashed.Hash ⟨d, salt, cost, 50, 97⟩)
      = .ok ⟨copyInto encodedHashSize d, salt, cost, 50, 97⟩ := by
  have hlen : (hashed.Hash ⟨d, salt, cost, 50, 97⟩).length = 60 := by
    simp [hashed.Hash, copyInto_length, costDigits_length, encodedSaltSize, encodedHashSize]
  have hform : hashed.Hash ⟨d, salt, cost, 50, 97⟩
      = 36 :: 50 :: 97 :: 36 :: (costDigits cost ++ 36 :: (salt ++ copyInto encodedHashSize d)) := by
    simp [hashed.Hash, copyInto_of_length _ _ hs]
  obtain ⟨c1, c2, hc⟩ : ∃ c1 c2, costDigits cost = [c1, c2] := ⟨_, _, rfl⟩
  have hat : atoi2 [c1, c2] = .ok cost := by
    rw [← hc]; exact atoi2_costDigits cost h4 h31
  unfold newFromHash
  rw [hlen, hform, hc]
  simp [minHashSize, hat, checkCost_none cost h4 h31, ← hs]

theorem CompareHashAndPassword_Hash (bf : Blowfish) (d salt password : Bytes) (cost : Int)
    (hs : salt.length = encodedSaltSize) (h4 : 4 ≤ cost) (h31 : cost ≤ 31) :
    CompareHashAndPassword bf (hashed.Hash ⟨d, salt, cost, 50, 97⟩) password =
      match bcrypt bf password cost salt with
      | .error e => some e
      | .ok other =>
        if copyInto encodedHashSize d = copyInto encodedHashSize other then none
        else some .ErrMismatchedHashAndPassword := by
  unfold CompareHashAndPassword
  rw [newFromHash_Hash d salt cost hs h4 h31]
  simp only
  cases bcrypt bf password cost salt with
  | error e => rfl
  | ok other =>
    simp only [hashed.Hash, copyInto_idem]
    by_cases h : copyInto encodedHashSize d = copyInto encodedHashSize other
    · simp [h]
    · simp [h]

theorem keyStream_long (a rest : Bytes) (h : 72 ≤ a.length) :
    keyStream (a ++ rest) = a.take 72 := by
  apply List.ext_getElem?
  intro n
  by_cases hn : n < 72
  · have hmod : n % (a ++ rest).length = n := Nat.mod_eq_of_lt (by simp; omega)
    have hna : n < a.length := by omega
    simp only [keyStream, List.getElem?_map, List.getElem?_range hn, Option.map_some',
      List.getD_eq_getElem?_getD, List.getElem?_take_of_lt hn,
      List.getElem?_eq_getElem hna]
    rw [hmod, List.getElem?_append_left hna, List.getElem?_eq_getElem hna, Option.getD_some]
  · have h1 : (keyStream (a ++ rest)).length ≤ n := by simp [keyStream]; omega
    have h2 : (a.take 72).length ≤ n := by simp; omega
    rw [List.getElem?_eq_none h1, List.getElem?_eq_none h2]

theorem stdAlphabet_good : GoodAlphabet stdAlphabet := ⟨by decide, by decide, by decide⟩

theorem bcAlphabet_good : GoodAlphabet bcAlphabet := ⟨by decide, by decide, by decide⟩

theorem GoodAlphabet.getD_ne_pad {al : List Byte} (hal : GoodAlphabet al) (i : Nat)
    (hi : i < 64) : al.getD i 0 ≠ padChar := by
  have hlt : i < al.length := by rw [hal.length_eq]; exact hi
  rw [List.getD_eq_getElem _ _ hlt]
  intro h
  exact hal.no_pad (h ▸ List.getElem_mem hlt)

theorem GoodAlphabet.getD_inj {al : List Byte} (hal : GoodAlphabet al) (i j : Nat)
    (hi : i < 64) (hj : j < 64) (h : al.getD i 0 = al.getD j 0) : i = j := by
  have hli : i < al.length := by rw [hal.length_eq]; exact hi
  have hlj : j < al.length := by rw [hal.length_eq]; exact hj
  rw [List.getD_eq_getElem _ _ hli, List.getD_eq_getElem _ _ hlj] at h
  exact (List.Nodup.getElem_inj_iff hal.nodup).mp h

theorem exists_of_length_16 (l : Bytes) (h : l.length = 16) :
    ∃ a0 a1 a2 a3 a4 a5 a6 a7 a8 a9 a10 a11 a12 a13 a14 a15 : Byte,
      l = [a0, a1, a2, a3, a4, a5, a6, a7, a8, a9, a10, a11, a12, a13, a14, a15] := by
  obtain ⟨a0, t0, rfl⟩ := List.exists_of_length_succ l (by simpa using h)
  obtain ⟨a1, t1, rfl⟩ := List.exists_of_length_succ t0 (by simpa using h)
  obtain ⟨a2, t2, rfl⟩ := List.exists_of_length_succ t1 (by simpa using h)
  obtain ⟨a3, t3, rfl⟩ := List.exists_of_length_succ t2 (by simpa using h)
  obtain ⟨a4, t4, rfl⟩ := List.exists_of_length_succ t3 (by simpa using h)
  obtain ⟨a5, t5, rfl⟩ := List.exists_of_length_succ t4 (by simpa using h)
  obtain ⟨a6, t6, rfl⟩ := List.exists_of_length_succ t5 (by simpa using h)
  obtain ⟨a7, t7, rfl⟩ := List.exists_of_length_succ t6 (by simpa using h)
  obtain ⟨a8, t8, rfl⟩ := List.exists_of_length_succ t7 (by simpa using h)
  obtain ⟨a9, t9, rfl⟩ := List.exists_of_length_succ t8 (by simpa using h)
  obtain ⟨a10, t10, rfl⟩ := List.exists_of_length_succ t9 (by simpa using h)
  obtain ⟨a11, t11, rfl⟩ := List.exists_of_length_succ t10 (by simpa using h)
  obtain ⟨a12, t12, rfl⟩ := List.exists_of_length_succ t11 (by simpa using h)
  obtain ⟨a13, t13, rfl⟩ := List.exists_of_length_succ t12 (by simpa using h)
  obtain ⟨a14, t14, rfl⟩ := List.exists_of_length_succ t13 (by simpa using h)
  obtain ⟨a15, t15, rfl⟩ := List.exists_of_length_succ t14 (by simpa using h)
  have : t15 = [] := by simpa using h
  subst this
  exact ⟨_, _, _, _, _, _, _, _, _, _, _, _, _, _, _, _, rfl⟩

theorem base64Encode_length (raw : Bytes) (h : raw.length = 16) :
    (base64Encode raw).length = encodedSaltSize := by
  obtain ⟨a0, a1, a2, a3, a4, a5, a6, a7, a8, a9, a10, a11, a12, a13, a14, a15, rfl⟩ :=
    exists_of_length_16 raw h
  have h1 := bcAlphabet_good.getD_ne_pad (a15.val % 4 * 16) (by omega)
  simp only [List.getD_eq_getElem?_getD] at h1
  simp [base64Encode, encodeGroups, List.dropWhile_cons, h1, encodedSaltSize]


theorem GenerateFromPassword_ok (bf : Blowfish) (password : Bytes) (cost : Int)
    (src hash src1 : Bytes)
    (hg : GenerateFromPassword bf password cost src = (.ok hash, src1)) :
    ∃ raw digest,
      randRead maxSaltSize src = (some raw, src1) ∧
      4 ≤ (if cost < MinCost then DefaultCost else cost) ∧
      (if cost < MinCost then DefaultCost else cost) ≤ 31 ∧
      bcrypt bf password (if cost < MinCost then DefaultCost else cost) (base64Encode raw)
        = .ok digest ∧
      hash = hashed.Hash
        ⟨digest, base64Encode raw, if cost < MinCost then DefaultCost else cost, 50, 97⟩ := by
  unfold GenerateFromPassword at hg
  simp only at hg
  generalize (if cost < MinCost then DefaultCost else cost) = c at hg ⊢
  have hc : checkCost c = none := by
    cases hcc : checkCost c with
    | none => rfl
    | some e => rw [hcc] at hg; simp at hg
  rw [hc] at hg
  simp only at hg
  have hrange : 4 ≤ c ∧ c ≤ 31 := by
    unfold checkCost at hc
    by_cases hn : c < MinCost ∨ c > MaxCost
    · simp [hn] at hc
    · simp only [MinCost, MaxCost] at hn
      omega
  rcases hr : randRead maxSaltSize src with ⟨_ | raw, src0⟩
  · rw [hr] at hg; simp at hg
  · rw [hr] at hg
    simp only at hg
    cases hb : bcrypt bf password c (base64Encode raw) with
    | error e => rw [hb] at hg; simp at hg
    | ok digest =>
      rw [hb] at hg
      simp only [Prod.mk.injEq, Except.ok.injEq] at hg
      obtain ⟨h1, h2⟩ := hg
      subst h2
      exact ⟨raw, digest, rfl, hrange.1, hrange.2, hb, h1.symm⟩

theorem hashPassword_ok (bf : Blowfish) (lim : Nat) (plaintext : Bytes) (keySize cost : Int)
    (src hash salt src2 : Bytes)
    (hh : hashPassword bf lim plaintext keySize cost src = (.ret (hash, salt, none), src2)) :
    ∃ key src1, 0 ≤ keySize ∧ randRead keySize.toNat src = (some key, src1) ∧
      salt = StdEncoding key ∧
      GenerateFromPassword bf (plaintext ++ salt) cost src1 = (.ok hash, src2) := by
  unfold hashPassword generateRandomText at hh
  by_cases hc : keySize < 0 ∨ (maxAlloc : Int) < keySize ∨ (lim : Int) < keySize
  · simp [hc] at hh
  · have hk : ¬ keySize < 0 := fun h => hc (Or.inl h)
    simp only [hc, if_false] at hh
    rcases hr : randRead keySize.toNat src with ⟨_ | key, src1⟩
    · rw [hr] at hh; simp at hh
    · rw [hr] at hh
      simp only at hh
      rcases hg : GenerateFromPassword bf (plaintext ++ StdEncoding key) cost src1
        with ⟨_ | h, src3⟩
      · rw [hg] at hh; simp at hh
      · rw [hg] at hh
        simp only [Prod.mk.injEq, Go.ret.injEq] at hh
        obtain ⟨⟨h1, h2, _⟩, h3⟩ := hh
        subst h1 h2 h3
        exact ⟨key, src1, not_lt.mp hk, rfl, rfl, hg⟩

/-- What verification against a generated hash computes: the digest of the
candidate under the cost and bcrypt salt of the stored hash, compared with the
stored digest. -/
theorem ValidatePassword_generated (bf : Blowfish) (lim : Nat) (plaintext : Bytes) (keySize cost : Int)
    (src hash salt src2 : Bytes)
    (hh : hashPassword bf lim plaintext keySize cost src = (.ret (hash, salt, none), src2)) :
    ∃ (c : Int) (bsalt digest : Bytes),
      bf c bsalt (keyStream (plaintext ++ salt ++ [0])) = .ok digest ∧
      ∀ (u : kolide.User) (candidate : Bytes), u.Password = hash → u.Salt = salt →
        u.ValidatePassword bf candidate =
          match bf c bsalt (keyStream (candidate ++ salt ++ [0])) with
          | .error e => some e
          | .ok other =>
            if copyInto encodedHashSize digest = copyInto encodedHashSize other then none
            else some .ErrMismatchedHashAndPassword := by
  obtain ⟨key, src1, _, _, _, hg⟩ := hashPassword_ok bf lim plaintext keySize cost src hash salt src2 hh
  obtain ⟨raw, digest, hr, h4, h31, hb, hhash⟩ :=
    GenerateFromPassword_ok bf (plaintext ++ salt) cost src1 hash src2 hg
  have hlen : (base64Encode raw).length = encodedSaltSize :=
    base64Encode_length raw (randRead_some _ _ _ _ hr).2.2
  refine ⟨_, base64Encode raw, digest, hb, ?_⟩
  intro u candidate hp hs
  unfold kolide.User.ValidatePassword
  rw [hp, hs, hhash, CompareHashAndPassword_Hash bf digest _ _ _ hlen h4 h31]
  rfl


/-! ## Verification after hashing -/

theorem ValidatePassword_of_keyStream_eq (bf : Blowfish) (lim : Nat) (plaintext : Bytes)
    (keySize cost : Int) (src hash salt src2 : Bytes)
    (hh : hashPassword bf lim plaintext keySize cost src = (.ret (hash, salt, none), src2))
    (u : kolide.User) (hp : u.Password = hash) (hs : u.Salt = salt) (candidate : Bytes)
    (hk : keyStream (candidate ++ salt ++ [0]) = keyStream (plaintext ++ salt ++ [0])) :
    u.ValidatePassword bf candidate = none := by
  obtain ⟨c, bsalt, digest, hd, hv⟩ :=
    ValidatePassword_generated bf lim plaintext keySize cost src hash salt src2 hh
  rw [hv u candidate hp hs, hk, hd]
  simp

theorem keyStream_shared_72 (plaintext candidate salt : Bytes) (hl : 72 ≤ plaintext.length)
    (ht : candidate.take 72 = plaintext.take 72) :
    keyStream (candidate ++ salt ++ [0]) = keyStream (plaintext ++ salt ++ [0]) := by
  have hc : 72 ≤ candidate.length := by
    have h1 : (candidate.take 72).length = 72 := by rw [ht]; simp; omega
    simp only [List.length_take] at h1
    omega
  rw [List.append_assoc, List.append_assoc, keyStream_long _ _ hc, keyStream_long _ _ hl, ht]

theorem ValidatePassword_iff_digest (bf : Blowfish) (lim : Nat) (plaintext : Bytes)
    (keySize cost : Int) (src hash salt src2 : Bytes)
    (hh : hashPassword bf lim plaintext keySize cost src = (.ret (hash, salt, none), src2)) :
    ∃ (c : Int) (bsalt digest : Bytes),
      bf c bsalt (keyStream (plaintext ++ salt ++ [0])) = .ok digest ∧
      ∀ (u : kolide.User) (candidate : Bytes), u.Password = hash → u.Salt = salt →
        (u.ValidatePassword bf candidate = none ↔
          ∃ other, bf c bsalt (keyStream (candidate ++ salt ++ [0])) = .ok other ∧
            copyInto encodedHashSize other = copyInto encodedHashSize digest) := by
  obtain ⟨c, bsalt, digest, hd, hv⟩ :=
    ValidatePassword_generated bf lim plaintext keySize cost src hash salt src2 hh
  refine ⟨c, bsalt, digest, hd, ?_⟩
  intro u candidate hp hs
  rw [hv u candidate hp hs]
  cases bf c bsalt (keyStream (candidate ++ salt ++ [0])) with
  | error e => simp
  | ok other =>
    by_cases he : copyInto encodedHashSize digest = copyInto encodedHashSize other
    · simp [he]
    · have he2 : ¬ copyInto encodedHashSize other = copyInto encodedHashSize digest :=
        fun h => he h.symm
      simp [he, he2]

/-- C5 as amended: for a hash and salt returned by a successful
`hashPassword(P, keySize, cost)`, verifying `P` succeeds, and verifying any `P2`
succeeds exactly when the Blowfish rounds, run with the stored cost and bcrypt
salt on the key material of `P2` followed by the salt, yield the stored digest.
That key material is the first 72 bytes only, so every `P2` with the key material
of `P` verifies too, and so every `P2` that agrees on the first 72 bytes with a
`P` of at least 72 bytes. -/
theorem ValidatePassword_after_hashPassword (bf : Blowfish) (lim : Nat) (plaintext : Bytes)
    (keySize cost : Int) (src hash salt src2 : Bytes) (u : kolide.User)
    (hh : hashPassword bf lim plaintext keySize cost src = (.ret (hash, salt, none), src2))
    (hp : u.Password = hash) (hs : u.Salt = salt) :
    u.ValidatePassword bf plaintext = none ∧
    (∀ candidate,
      keyStream (candidate ++ salt ++ [0]) = keyStream (plaintext ++ salt ++ [0]) →
        u.ValidatePassword bf candidate = none) ∧
    (∀ candidate, 72 ≤ plaintext.length → candidate.take 72 = plaintext.take 72 →
      u.ValidatePassword bf candidate = none) ∧
    ∃ (c : Int) (bsalt digest : Bytes),
      bf c bsalt (keyStream (plaintext ++ salt ++ [0])) = .ok digest ∧
      ∀ candidate,
        (u.ValidatePassword bf candidate = none ↔
          ∃ other, bf c bsalt (keyStream (candidate ++ salt ++ [0])) = .ok other ∧
            copyInto encodedHashSize other = copyInto encodedHashSize digest) := by
  refine ⟨?_, ?_, ?_, ?_⟩
  · exact ValidatePassword_of_keyStream_eq bf lim plaintext keySize cost src hash salt src2 hh
      u hp hs plaintext rfl
  · intro candidate hk
    exact ValidatePassword_of_keyStream_eq bf lim plaintext keySize cost src hash salt src2 hh
      u hp hs candidate hk
  · intro candidate hl ht
    exact ValidatePassword_of_keyStream_eq bf lim plaintext keySize cost src hash salt src2 hh
      u hp hs candidate (keyStream_shared_72 plaintext candidate salt hl ht)
  · obtain ⟨c, bsalt, digest, hd, hv⟩ :=
      ValidatePassword_iff_digest bf lim plaintext keySize cost src hash salt src2 hh
    exact ⟨c, bsalt, digest, hd, fun candidate => hv u candidate hp hs⟩

set_option maxRecDepth 100000 in
theorem ValidatePassword_after_hashPassword_witness :
    alice.ValidatePassword foldCrypt correcthorse = none ∧
    (∀ candidate,
      keyStream (candidate ++ alice.Salt ++ [0])
          = keyStream (correcthorse ++ alice.Salt ++ [0]) →
        alice.ValidatePassword foldCrypt candidate = none) ∧
    (∀ candidate, 72 ≤ correcthorse.length → candidate.take 72 = correcthorse.take 72 →
      alice.ValidatePassword foldCrypt candidate = none) ∧
    ∃ (c : Int) (bsalt digest : Bytes),
      foldCrypt c bsalt
        (keyStream (correcthorse ++ alice.Salt ++ [0]))
          = .ok digest ∧
      ∀ candidate,
        (alice.ValidatePassword foldCrypt candidate = none ↔
          ∃ other, foldCrypt c bsalt
              (keyStream (candidate ++ alice.Salt ++ [0]))
                = .ok other ∧
            copyInto encodedHashSize other = copyInto encodedHashSize digest) :=
  ValidatePassword_after_hashPassword foldCrypt sampleLimit correcthorse 24 12 sampleRand
    alice.Password alice.Salt
    (sampleRand.drop 40) alice rfl rfl rfl

set_option maxRecDepth 100000 in
/-- C5 fails as stated: `longA` (72 bytes) and `longB` (the same 72 bytes and one
more) are different plaintexts. `hashPassword` succeeds on `longA`, with 24 salt
bytes as with none, and `longB` verifies against the hash and salt it returned;
this holds whatever the Blowfish rounds compute, whatever the key size, cost and
random bytes. -/
theorem ValidatePassword_accepts_other_plaintext :
    longB ≠ longA ∧
    (∃ hash salt src2,
      hashPassword foldCrypt sampleLimit longA 24 12 sampleRand = (.ret (hash, salt, none), src2) ∧
      ({ Password := hash, Salt := salt } : kolide.User).ValidatePassword foldCrypt longB
        = none) ∧
    (∃ hash src2,
      hashPassword foldCrypt sampleLimit longA 0 12 sampleRand = (.ret (hash, [], none), src2) ∧
      ({ Password := hash, Salt := [] } : kolide.User).ValidatePassword foldCrypt longB
        = none) ∧
    ∀ (bf : Blowfish) (lim : Nat) (keySize cost : Int) (src hash salt src2 : Bytes),
      hashPassword bf lim longA keySize cost src = (.ret (hash, salt, none), src2) →
        ({ Password := hash, Salt := salt } : kolide.User).ValidatePassword bf longB
          = none := by
  refine ⟨by decide, ⟨_, _, _, rfl, rfl⟩, ⟨_, _, rfl, rfl⟩, ?_⟩
  intro bf lim keySize cost src hash salt src2 hh
  exact ValidatePassword_of_keyStream_eq bf lim longA keySize cost src hash salt src2 hh
    _ rfl rfl longB (keyStream_shared_72 longA longB salt (by decide) (by decide))

/-! ## Changing the password: the accepted case -/

theorem ChangePassword_of_hash {σ : Type} (bf : Blowfish) (lim : Nat) (svc : service σ)
    (userID : Nat) (old new : Bytes) (w : World σ) (user : kolide.User)
    (hash salt src1 : Bytes)
    (hUser : svc.User userID w.store = .ok user)
    (hOld : user.ValidatePassword bf old = none)
    (hH : hashPassword bf lim new svc.config.Auth.SaltKeySize svc.config.Auth.BcryptCost w.rand
      = (.ret (hash, salt, none), src1)) :
    svc.ChangePassword bf lim userID old new w =
      (.ret (svc.ds.SaveUser { user with Salt := salt, Password := hash } w.store).1,
       ⟨src1, (svc.ds.SaveUser { user with Salt := salt, Password := hash } w.store).2⟩) := by
  simp [service.ChangePassword, service.saveUser, hUser, hOld, hH]

/-- C3 as amended: for a user present in the datastore whose old password verifies,
when `hashPassword(new, SaltKeySize, BcryptCost)` succeeds `ChangePassword` performs
exactly one write, a `SaveUser` of the fetched record with Salt and Password
replaced by the pair `hashPassword` just returned and nothing else changed, and
returns what `SaveUser` returns. The new plaintext verifies against that record.
The old plaintext verifies against it exactly when its digest under the new salt
is the stored one: always when old and new are the same, or share their first 72
bytes with new at least 72 bytes long. -/
theorem ChangePassword_replaces_salt_and_hash {σ : Type} (bf : Blowfish) (lim : Nat) (svc : service σ)
    (userID : Nat) (old new : Bytes) (w : World σ) (user : kolide.User)
    (hash salt src1 : Bytes)
    (hUser : svc.User userID w.store = .ok user)
    (hOld : user.ValidatePassword bf old = none)
    (hH : hashPassword bf lim new svc.config.Auth.SaltKeySize svc.config.Auth.BcryptCost w.rand
      = (.ret (hash, salt, none), src1)) :
    svc.ChangePassword bf lim userID old new w =
      (.ret (svc.ds.SaveUser { user with Salt := salt, Password := hash } w.store).1,
       ⟨src1, (svc.ds.SaveUser { user with Salt := salt, Password := hash } w.store).2⟩) ∧
    (∀ log : List DsWrite,
      (svc.recording.ChangePassword bf lim userID old new ⟨w.rand, (w.store, log)⟩).2.store.2
        = log ++ [.SaveUser
            { ID := user.ID, Username := user.Username, Email := user.Email,
              Password := hash, Salt := salt, Admin := user.Admin,
              AdminForcedPasswordReset := user.AdminForcedPasswordReset,
              Enabled := user.Enabled }]) ∧
    ({ user with Salt := salt, Password := hash } : kolide.User).ValidatePassword bf new
      = none ∧
    (old = new →
      ({ user with Salt := salt, Password := hash } : kolide.User).ValidatePassword bf old
        = none) ∧
    (72 ≤ new.length → old.take 72 = new.take 72 →
      ({ user with Salt := salt, Password := hash } : kolide.User).ValidatePassword bf old
        = none) ∧
    ∃ (c : Int) (bsalt digest : Bytes),
      bf c bsalt (keyStream (new ++ salt ++ [0])) = .ok digest ∧
      (({ user with Salt := salt, Password := hash } : kolide.User).ValidatePassword bf old
          = none ↔
        ∃ other, bf c bsalt (keyStream (old ++ salt ++ [0])) = .ok other ∧
          copyInto encodedHashSize other = copyInto encodedHashSize digest) := by
  have hnew := ValidatePassword_of_keyStream_eq bf lim new _ _ _ hash salt src1 hH
    { user with Salt := salt, Password := hash } rfl rfl
  refine ⟨ChangePassword_of_hash bf lim svc userID old new w user hash salt src1 hUser hOld hH,
    ?_, hnew new rfl, ?_, ?_, ?_⟩
  · intro log
    have hrec : svc.recording.User userID (w.store, log) = .ok user := hUser
    rw [ChangePassword_of_hash bf lim svc.recording userID old new ⟨w.rand, (w.store, log)⟩
      user hash salt src1 hrec hOld hH]
    rfl
  · intro h
    rw [h]
    exact hnew new rfl
  · intro hl ht
    exact hnew old (keyStream_shared_72 new old salt hl ht)
  · obtain ⟨c, bsalt, digest, hd, hv⟩ :=
      ValidatePassword_iff_digest bf lim new _ _ _ hash salt src1 hH
    exact ⟨c, bsalt, digest, hd, hv _ old rfl rfl⟩

set_option maxRecDepth 100000 in
theorem ChangePassword_replaces_salt_and_hash_witness :
    sampleService.ChangePassword foldCrypt sampleLimit 1 correcthorse newpass aliceWorld =
      (.ret none,
       ⟨sampleRand.drop 80,
        ⟨[{ alice with Salt := newpassSalt, Password := newpassHash }], 2⟩⟩) ∧
    (∀ log : List DsWrite,
      (sampleService.recording.ChangePassword foldCrypt sampleLimit 1 correcthorse newpass
          ⟨aliceWorld.rand, (aliceWorld.store, log)⟩).2.store.2
        = log ++ [.SaveUser
            { ID := 1, Username := [97, 108, 105, 99, 101], Email := [97, 64, 98, 46, 99],
              Password := newpassHash, Salt := newpassSalt, Admin := false,
              AdminForcedPasswordReset := false,
              Enabled := true }]) ∧
    ({ alice with Salt := newpassSalt, Password := newpassHash } : kolide.User).ValidatePassword
      foldCrypt newpass = none ∧
    newpassSalt ≠ alice.Salt ∧ newpassHash ≠ alice.Password := by
  have h := ChangePassword_replaces_salt_and_hash foldCrypt sampleLimit sampleService 1 correcthorse
    newpass aliceWorld alice newpassHash newpassSalt (sampleRand.drop 80) rfl rfl rfl
  exact ⟨h.1, h.2.1, h.2.2.1, by decide, by decide⟩

set_option maxRecDepth 100000 in
/-- C3 fails as stated: in the example scenario, `ChangePassword` called with the
new password equal to the old one succeeds, stores a fresh salt and hash, and the
old plaintext still verifies against the stored record. -/
theorem ChangePassword_same_password_still_verifies :
    (alice.ValidatePassword foldCrypt correcthorse = none) ∧
    (sampleService.ChangePassword foldCrypt sampleLimit 1 correcthorse correcthorse aliceWorld).1
      = .ret none ∧
    ((sampleService.User 1
      (sampleService.ChangePassword foldCrypt sampleLimit 1 correcthorse correcthorse
        aliceWorld).2.store).toOption.map
        fun u => (decide (u.Salt ≠ alice.Salt), u.ValidatePassword foldCrypt correcthorse))
      = some (true, none) := by
  refine ⟨rfl, rfl, ?_⟩
  decide

/-! ## Two calls of hashPassword -/

theorem encodeGroups_injective (al : List Byte) (hal : GoodAlphabet al) :
    ∀ a b : Bytes, encodeGroups al a = encodeGroups al b → a = b := by
  intro a
  refine encodeGroups.induct al
    (fun a => ∀ b, encodeGroups al a = encodeGroups al b → a = b) ?_ ?_ ?_ ?_ a
  · intro b h
    match b with
    | [] => rfl
    | [_] => simp [encodeGroups] at h
    | [_, _] => simp [encodeGroups] at h
    | _ :: _ :: _ :: _ => simp [encodeGroups] at h
  · intro b0 b h
    match b with
    | [] => simp [encodeGroups] at h
    | [c0] =>
      simp only [encodeGroups, List.cons.injEq, and_true] at h
      have h1 := hal.getD_inj _ _ (by omega) (by omega) h.1
      have h2 := hal.getD_inj _ _ (by omega) (by omega) h.2
      have : b0 = c0 := Fin.ext (by omega)
      rw [this]
    | [c0, c1] =>
      simp only [encodeGroups, List.cons.injEq, and_true] at h
      exact absurd h.2.2.symm (hal.getD_ne_pad _ (by omega))
    | c0 :: c1 :: c2 :: rest =>
      simp only [encodeGroups, List.cons.injEq] at h
      exact absurd h.2.2.1.symm (hal.getD_ne_pad _ (by omega))
  · intro b0 b1 b h
    match b with
    | [] => simp [encodeGroups] at h
    | [c0] =>
      simp only [encodeGroups, List.cons.injEq, and_true] at h
      exact absurd h.2.2 (hal.getD_ne_pad _ (by omega))
    | [c0, c1] =>
      simp only [encodeGroups, List.cons.injEq, and_true] at h
      have h1 := hal.getD_inj _ _ (by omega) (by omega) h.1
      have h2 := hal.getD_inj _ _ (by omega) (by omega) h.2.1
      have h3 := hal.getD_inj _ _ (by omega) (by omega) h.2.2
      have e0 : b0 = c0 := Fin.ext (by omega)
      have e1 : b1 = c1 := Fin.ext (by omega)
      rw [e0, e1]
    | c0 :: c1 :: c2 :: rest =>
      simp only [encodeGroups, List.cons.injEq] at h
      exact absurd h.2.2.2.1.symm (hal.getD_ne_pad _ (by omega))
  · intro b0 b1 b2 rest ih b h
    match b with
    | [] => simp [encodeGroups] at h
    | [c0] =>
      simp only [encodeGroups, List.cons.injEq] at h
      exact absurd h.2.2.1 (hal.getD_ne_pad _ (by omega))
    | [c0, c1] =>
      simp only [encodeGroups, List.cons.injEq] at h
      exact absurd h.2.2.2.1 (hal.getD_ne_pad _ (by omega))
    | c0 :: c1 :: c2 :: rest2 =>
      simp only [encodeGroups, List.cons.injEq] at h
      have h1 := hal.getD_inj _ _ (by omega) (by omega) h.1
      have h2 := hal.getD_inj _ _ (by omega) (by omega) h.2.1
      have h3 := hal.getD_inj _ _ (by omega) (by omega) h.2.2.1
      have h4 := hal.getD_inj _ _ (by omega) (by omega) h.2.2.2.1
      have e0 : b0 = c0 := Fin.ext (by omega)
      have e1 : b1 = c1 := Fin.ext (by omega)
      have e2 : b2 = c2 := Fin.ext (by omega)
      rw [e0, e1, e2, ih rest2 h.2.2.2.2]

theorem StdEncoding_injective (a b : Bytes) (h : StdEncoding a = StdEncoding b) : a = b :=
  encodeGroups_injective stdAlphabet stdAlphabet_good a b h

theorem encodeGroups_eq_base64Encode (raw : Bytes) (h : raw.length = 16) :
    encodeGroups bcAlphabet raw = base64Encode raw ++ [padChar, padChar] := by
  obtain ⟨a0, a1, a2, a3, a4, a5, a6, a7, a8, a9, a10, a11, a12, a13, a14, a15, rfl⟩ :=
    exists_of_length_16 raw h
  have h1 := bcAlphabet_good.getD_ne_pad (a15.val % 4 * 16) (by omega)
  simp only [List.getD_eq_getElem?_getD] at h1
  simp [base64Encode, encodeGroups, List.dropWhile_cons, h1]

theorem base64Encode_injective (a b : Bytes) (ha : a.length = 16) (hb : b.length = 16)
    (h : base64Encode a = base64Encode b) : a = b := by
  apply encodeGroups_injective bcAlphabet bcAlphabet_good
  rw [encodeGroups_eq_base64Encode a ha, encodeGroups_eq_base64Encode b hb, h]

theorem Hash_generated (d salt : Bytes) (cost : Int) (hs : salt.length = encodedSaltSize) :
    hashed.Hash ⟨d, salt, cost, 50, 97⟩
      = 36 :: 50 :: 97 :: 36 ::
          (costDigits cost ++ 36 :: (salt ++ copyInto encodedHashSize d)) := by
  simp [hashed.Hash, copyInto_of_length _ _ hs]

theorem Hash_ne_of_salt_ne (d1 d2 salt1 salt2 : Bytes) (cost : Int)
    (h1 : salt1.length = encodedSaltSize) (h2 : salt2.length = encodedSaltSize)
    (hne : salt1 ≠ salt2) :
    hashed.Hash ⟨d1, salt1, cost, 50, 97⟩ ≠ hashed.Hash ⟨d2, salt2, cost, 50, 97⟩ := by
  rw [Hash_generated d1 salt1 cost h1, Hash_generated d2 salt2 cost h2]
  intro h
  simp only [List.cons.injEq, true_and, List.append_cancel_left_eq] at h
  exact hne (List.append_inj_left h (by rw [h1, h2]))

/-- What a successful `hashPassword` returns, in terms of the bytes it read. -/
theorem hashPassword_ok_reads (bf : Blowfish) (lim : Nat) (plaintext : Bytes) (keySize cost : Int)
    (src hash salt src2 : Bytes)
    (hh : hashPassword bf lim plaintext keySize cost src = (.ret (hash, salt, none), src2)) :
    salt = StdEncoding (src.take keySize.toNat) ∧
    (src.take keySize.toNat).length = keySize.toNat ∧
    ((src.drop keySize.toNat).take 16).length = 16 ∧
    ∃ digest,
      bf (if cost < MinCost then DefaultCost else cost)
          (base64Encode ((src.drop keySize.toNat).take 16))
          (keyStream (plaintext ++ salt ++ [0])) = .ok digest ∧
      hash = hashed.Hash ⟨digest, base64Encode ((src.drop keySize.toNat).take 16),
        if cost < MinCost then DefaultCost else cost, 50, 97⟩ := by
  obtain ⟨key, src1, _, hr, hs, hg⟩ :=
    hashPassword_ok bf lim plaintext keySize cost src hash salt src2 hh
  obtain ⟨hkey, hsrc1, hlen⟩ := randRead_some _ _ _ _ hr
  obtain ⟨raw, digest, hr2, _, _, hb, hhash⟩ :=
    GenerateFromPassword_ok bf (plaintext ++ salt) cost src1 hash src2 hg
  obtain ⟨hraw, _, hlen2⟩ := randRead_some _ _ _ _ hr2
  subst hkey hsrc1 hraw
  exact ⟨hs, hlen, hlen2, digest, hb, hhash⟩


/-- C10 as amended: two successful calls of `hashPassword(P, keySize, cost)` return
as salts the base64 encodings of the `keySize` bytes each call read from the random
source. The two salts differ exactly when those bytes differ, and never when
`keySize` is 0, where both are empty. The two hashes differ whenever the sixteen
bytes bcrypt drew for its own salt differ; when all the bytes the two calls read
are the same, both the salts and the hashes are the same. -/
theorem hashPassword_twice (bf : Blowfish) (lim : Nat) (plaintext : Bytes) (keySize cost : Int)
    (srcA srcB hash1 salt1 restA hash2 salt2 restB : Bytes)
    (hA : hashPassword bf lim plaintext keySize cost srcA = (.ret (hash1, salt1, none), restA))
    (hB : hashPassword bf lim plaintext keySize cost srcB = (.ret (hash2, salt2, none), restB)) :
    salt1 = StdEncoding (srcA.take keySize.toNat) ∧
    salt2 = StdEncoding (srcB.take keySize.toNat) ∧
    (salt1 ≠ salt2 ↔ srcA.take keySize.toNat ≠ srcB.take keySize.toNat) ∧
    (keySize = 0 → salt1 = [] ∧ salt2 = []) ∧
    ((srcA.drop keySize.toNat).take 16 ≠ (srcB.drop keySize.toNat).take 16 →
      hash1 ≠ hash2) ∧
    (srcA.take keySize.toNat = srcB.take keySize.toNat →
      (srcA.drop keySize.toNat).take 16 = (srcB.drop keySize.toNat).take 16 →
        salt1 = salt2 ∧ hash1 = hash2) := by
  obtain ⟨hs1, _, hl1, d1, hd1, hh1⟩ :=
    hashPassword_ok_reads bf lim plaintext keySize cost srcA hash1 salt1 restA hA
  obtain ⟨hs2, _, hl2, d2, hd2, hh2⟩ :=
    hashPassword_ok_reads bf lim plaintext keySize cost srcB hash2 salt2 restB hB
  refine ⟨hs1, hs2, ?_, ?_, ?_, ?_⟩
  · rw [hs1, hs2]
    constructor
    · intro hne heq
      exact hne (by rw [heq])
    · intro hne heq
      exact hne (StdEncoding_injective _ _ heq)
  · intro hk
    rw [hs1, hs2, hk]
    exact ⟨rfl, rfl⟩
  · intro hne
    rw [hh1, hh2]
    apply Hash_ne_of_salt_ne
    · exact base64Encode_length _ hl1
    · exact base64Encode_length _ hl2
    · intro heq
      exact hne (base64Encode_injective _ _ hl1 hl2 heq)
  · intro ht hr
    have hs : salt1 = salt2 := by rw [hs1, hs2, ht]
    refine ⟨hs, ?_⟩
    rw [hr, hs, hd2] at hd1
    cases hd1
    rw [hh1, hh2, hr]

set_option maxRecDepth 100000 in
theorem hashPassword_twice_witness :
    alice.Salt = StdEncoding (sampleRand.take 24) ∧
    resultSalt (hashPassword foldCrypt sampleLimit correcthorse 24 12 (sampleRand.drop 40))
      = StdEncoding ((sampleRand.drop 40).take 24) ∧
    alice.Salt ≠ resultSalt (hashPassword foldCrypt sampleLimit correcthorse 24 12 (sampleRand.drop 40)) ∧
    alice.Password
      ≠ resultHash (hashPassword foldCrypt sampleLimit correcthorse 24 12 (sampleRand.drop 40)) := by
  have h := hashPassword_twice foldCrypt sampleLimit correcthorse 24 12 sampleRand (sampleRand.drop 40)
    alice.Password alice.Salt (sampleRand.drop 40)
    (resultHash (hashPassword foldCrypt sampleLimit correcthorse 24 12 (sampleRand.drop 40)))
    (resultSalt (hashPassword foldCrypt sampleLimit correcthorse 24 12 (sampleRand.drop 40)))
    (sampleRand.drop 80) rfl rfl
  exact ⟨h.1, h.2.1, h.2.2.1.mpr (by decide), h.2.2.2.2.1 (by decide)⟩

set_option maxRecDepth 100000 in
/-- C10 fails as stated. With a key size of 0, two successive successful calls of
`hashPassword` both return the empty salt, whatever the random source delivers
and whatever the Blowfish rounds compute; and with 24 salt bytes, when the random
source delivers the same forty bytes twice, two successive calls on the same
plaintext return the same salt and the same hash. -/
theorem hashPassword_twice_same_salt :
    (∃ hash1 hash2 rest1 rest2,
      hashPassword foldCrypt sampleLimit correcthorse 0 12 sampleRand = (.ret (hash1, [], none), rest1) ∧
      hashPassword foldCrypt sampleLimit correcthorse 0 12 rest1 = (.ret (hash2, [], none), rest2)) ∧
    (∀ (bf : Blowfish) (lim : Nat) (plaintext : Bytes) (cost : Int) (src hash salt rest : Bytes),
      hashPassword bf lim plaintext 0 cost src = (.ret (hash, salt, none), rest) → salt = []) ∧
    (∃ hash salt rest1 rest2,
      hashPassword foldCrypt sampleLimit correcthorse 24 12 repeatingRand
        = (.ret (hash, salt, none), rest1) ∧
      hashPassword foldCrypt sampleLimit correcthorse 24 12 rest1 = (.ret (hash, salt, none), rest2)) := by
  refine ⟨⟨_, _, _, _, rfl, rfl⟩, ?_, ⟨_, _, _, _, rfl, rfl⟩⟩
  intro bf lim plaintext cost src hash salt rest hh
  rw [(hashPassword_ok_reads bf lim plaintext 0 cost src hash salt rest hh).1]
  rfl

/-! ## The example scenario -/

set_option maxRecDepth 100000 in
/-- The rest of the example scenario: a change with `wrongpass` as old password is
refused and leaves the stored hash as it was; a change from `correcthorse` to
`newpass` succeeds, after which `newpass` verifies against the stored record and
`correcthorse` does not. -/
theorem scenario_change_password :
    (sampleService.ChangePassword foldCrypt sampleLimit 1 wrongpass newpass aliceWorld).1
      = .ret (some (.errorf "current password validation failed"
          .ErrMismatchedHashAndPassword)) ∧
    sampleService.User 1
        (sampleService.ChangePassword foldCrypt sampleLimit 1 wrongpass newpass aliceWorld).2.store
      = .ok alice ∧
    (sampleService.ChangePassword foldCrypt sampleLimit 1 correcthorse newpass aliceWorld).1
      = .ret none ∧
    ((sampleService.User 1
      (sampleService.ChangePassword foldCrypt sampleLimit 1 correcthorse newpass
        aliceWorld).2.store).toOption.map
        fun u => (u.ValidatePassword foldCrypt newpass,
          u.ValidatePassword foldCrypt correcthorse))
      = some (none, some .ErrMismatchedHashAndPassword) := by
  refine ⟨rfl, rfl, rfl, ?_⟩
  decide

end Fleet
